import Mathlib

/-!
# Verification of the cocos-trading-api order ledger & portfolio engine

Shallow embedding of the TypeScript services of the repository
(`CashCalculator`, `PositionCalculator`, `OrderCalculationService`,
`OrderStatusService`, `OrderExecutionService`, `OrderService`,
`PortfolioService`, `PortfolioValidationService`, `CashController`)
into Lean, with theorems settling the specification claims.

Numbers (`number` in TypeScript) are modelled as rationals `ℚ`;
nullable numeric fields as `Option ℚ` (JS truthiness `x` for a
number is `x ≠ 0`, for a nullable field "present and nonzero").
-/

namespace Cocos

/-- Order side, from `entities/Order.ts` (`enum OrderSide`). -/
inductive OrderSide
  | BUY
  | SELL
  | CASH_IN
  | CASH_OUT
deriving DecidableEq, Repr

/-- Order type, from `entities/Order.ts` (`enum OrderType`). -/
inductive OrderType
  | MARKET
  | LIMIT
deriving DecidableEq, Repr

/-- Order status, from `entities/Order.ts` (`enum OrderStatus`). -/
inductive OrderStatus
  | NEW
  | FILLED
  | REJECTED
  | CANCELLED
deriving DecidableEq, Repr

/-- The persisted `Order` entity (`entities/Order.ts`): `price` is a
nullable decimal column, `datetime` a timestamp (modelled as `Nat`). -/
structure Order where
  id : Nat
  instrumentId : Nat
  userId : Nat
  side : OrderSide
  size : ℚ
  price : Option ℚ
  type : OrderType
  status : OrderStatus
  datetime : Nat
deriving DecidableEq, Repr

/-- `utils/financial.ts` `toNumberOrZero` applied to a nullable number:
`Number(null) = 0`, so a missing value becomes `0`. -/
def toNumberOrZero (v : Option ℚ) : ℚ := v.getD 0

/-- JS truthiness of a nullable number: present and nonzero. -/
def numTruthy (v : Option ℚ) : Bool := v.getD 0 ≠ 0

/-- `utils/financial.ts` `calculateMarketValue`. -/
def calculateMarketValue (quantity pricePerUnit : ℚ) : ℚ :=
  quantity * pricePerUnit

/-- `utils/financial.ts` `calculatePerformancePercent`: percent change
from `base` to `current`, `0` when either amount is `≤ 0`. -/
def calculatePerformancePercent (currentAmount baseAmount : ℚ) : ℚ :=
  if baseAmount ≤ 0 ∨ currentAmount ≤ 0 then 0
  else (currentAmount - baseAmount) / baseAmount * 100

/-- Derived cash balance (`CashCalculationResult.cashBalance`). -/
structure CashBalance where
  total : ℚ
  available : ℚ
  reserved : ℚ
deriving DecidableEq, Repr

/-- One iteration of the loop in `CashCalculator.calculateCashBalance`:
accumulator is `(totalCash, reservedCash)`. -/
def cashStep (acc : ℚ × ℚ) (o : Order) : ℚ × ℚ :=
  let price := toNumberOrZero o.price
  let amount := o.size * price
  if o.status = OrderStatus.FILLED then
    match o.side with
    | OrderSide.CASH_IN => (acc.1 + o.size, acc.2)
    | OrderSide.CASH_OUT => (acc.1 - o.size, acc.2)
    | OrderSide.BUY => (acc.1 - amount, acc.2)
    | OrderSide.SELL => (acc.1 + amount, acc.2)
  else if o.status = OrderStatus.NEW ∧ o.side = OrderSide.BUY then
    (acc.1, acc.2 + amount)
  else acc

/-- `CashCalculator.calculateCashBalance` (src/unnamed/part_010):
total from FILLED orders, reserved from NEW BUY orders,
`available = total - reserved`. -/
def calculateCashBalance (allOrders : List Order) : CashBalance :=
  let tr := allOrders.foldl cashStep (0, 0)
  { total := tr.1, available := tr.1 - tr.2, reserved := tr.2 }

/-- Replay accumulator of `PositionCalculator.calculatePositionData`. -/
structure ReplayState where
  quantity : ℚ
  averageCost : ℚ
  totalInvestment : ℚ
  realizedGains : ℚ
deriving DecidableEq, Repr

/-- One iteration of the replay loop in
`PositionCalculator.calculatePositionData` (src/unnamed/part_014,
lines 117-132). -/
def replayStep (s : ReplayState) (o : Order) : ReplayState :=
  let pricePerUnit := toNumberOrZero o.price
  if o.side = OrderSide.BUY then
    let totalCost := s.quantity * s.averageCost + o.size * pricePerUnit
    let quantity := s.quantity + o.size
    { quantity := quantity
      averageCost := if quantity > 0 then totalCost / quantity else 0
      totalInvestment := s.totalInvestment + o.size * pricePerUnit
      realizedGains := s.realizedGains }
  else if o.side = OrderSide.SELL then
    if s.quantity ≤ 0 then s
    else
      { s with
        realizedGains := s.realizedGains + (pricePerUnit - s.averageCost) * o.size
        quantity := s.quantity - o.size }
  else s

/-- The replay of a chronological list of orders (the `for` loop of
`calculatePositionData`, starting from all-zero accumulators). -/
def replayOrders (orders : List Order) : ReplayState :=
  orders.foldl replayStep ⟨0, 0, 0, 0⟩

/-- Result record of `calculatePositionData` (types/portfolio
`PositionCalculationResult`). -/
structure PositionCalculationResult where
  quantity : ℚ
  averageCost : ℚ
  marketValue : ℚ
  totalReturnPercent : ℚ
  totalInvestment : ℚ
  realizedGains : ℚ
deriving DecidableEq, Repr

/-- `PositionCalculator.calculatePositionData` (src/unnamed/part_014,
lines 106-151). -/
def calculatePositionData (orders : List Order) (currentMarketPrice : ℚ) :
    PositionCalculationResult :=
  let s := replayOrders orders
  let marketValue := calculateMarketValue s.quantity currentMarketPrice
  let totalReturnPercent :=
    if s.totalInvestment > 0 then
      calculatePerformancePercent (s.realizedGains + marketValue) s.totalInvestment
    else 0
  { quantity := s.quantity, averageCost := s.averageCost
    marketValue := marketValue, totalReturnPercent := totalReturnPercent
    totalInvestment := s.totalInvestment, realizedGains := s.realizedGains }

/-- A position as emitted by `PositionCalculator.calculatePositions`
(quantity split into total/available/reserved). Ticker and name are
display-only strings and are omitted. -/
structure Position where
  instrumentId : Nat
  total : ℚ
  available : ℚ
  reserved : ℚ
  currentPrice : ℚ
  marketValue : ℚ
  totalReturnPercent : ℚ
deriving DecidableEq, Repr

/-- Whether an order is a trading order (`side` BUY or SELL), the filter
at the top of `calculatePositions`. -/
def isTrading (o : Order) : Bool :=
  o.side = OrderSide.BUY ∨ o.side = OrderSide.SELL

/-- Keys of `groupOrdersByInstrument`, in first-occurrence order
(JS `Map` iteration order is insertion order). -/
def instrumentIdsIn (orders : List Order) : List Nat :=
  orders.foldl
    (fun acc o => if o.instrumentId ∈ acc then acc else acc ++ [o.instrumentId])
    []

/-- Body of the per-instrument loop in `calculatePositions`: the group's
orders are the trading orders with this `instrumentId` (grouping keeps
relative order), a position is emitted only when the replayed quantity
is `> 0`. -/
def positionFor (tradingOrders : List Order) (instrumentId : Nat)
    (currentMarketPrice : ℚ) : Option Position :=
  let instrumentOrders := tradingOrders.filter (fun o => o.instrumentId = instrumentId)
  let calculation := calculatePositionData
    (instrumentOrders.filter (fun o => o.status = OrderStatus.FILLED))
    currentMarketPrice
  if calculation.quantity > 0 then
    let reservedShares :=
      ((instrumentOrders.filter
        (fun o => o.status = OrderStatus.NEW ∧ o.side = OrderSide.SELL)).map
          (fun o => o.size)).sum
    some
      { instrumentId := instrumentId
        total := calculation.quantity
        available := calculation.quantity - reservedShares
        reserved := reservedShares
        currentPrice := currentMarketPrice
        marketValue := calculation.marketValue
        totalReturnPercent := calculation.totalReturnPercent }
  else none

/-- `PositionCalculator.calculatePositions` (src/unnamed/part_014,
lines 19-88). `marketPrices` is the price map; a missing entry reads as
`0` via `toNumberOrZero`, so it is modelled as a total function. -/
def calculatePositions (allOrders : List Order) (marketPrices : Nat → ℚ) :
    List Position :=
  let tradingOrders := allOrders.filter isTrading
  (instrumentIdsIn tradingOrders).filterMap
    (fun iid => positionFor tradingOrders iid (marketPrices iid))

/-- Errors raised by the services (`middlewares/errorHandler.ts`):
`validation` is `ValidationError` (HTTP 400), `app` is `AppError` with
its status code, `err` is a plain `Error`. Messages that interpolate
runtime values in TypeScript are modelled by their constant prefix. -/
inductive Err
  | validation (msg : String)
  | app (msg : String) (status : Nat)
  | err (msg : String)
deriving DecidableEq, Repr

/-- `OrderCalculationService.determineExecutionPrice`
(src/unnamed/part_009, lines 31-45): MARKET uses the current market
price; LIMIT uses the (truthy) limit price, else throws. -/
def determineExecutionPrice (type : OrderType) (currentPrice : ℚ)
    (limitPrice : Option ℚ) : Except Err ℚ :=
  if type = OrderType.MARKET then .ok currentPrice
  else if type = OrderType.LIMIT ∧ numTruthy limitPrice then
    .ok (limitPrice.getD 0)
  else .error (.validation "LIMIT orders require a price")

/-- `OrderCalculationService.calculateSize` (src/unnamed/part_009,
lines 47-61): a truthy `size` wins, else `floor(amount / price)` when
`amount` is truthy and `price > 0`, else throws. -/
def calculateSize (size amount : Option ℚ) (price : ℚ) : Except Err ℚ :=
  if numTruthy size then .ok (size.getD 0)
  else if numTruthy amount ∧ price ≠ 0 ∧ price > 0 then
    .ok (⌊amount.getD 0 / price⌋ : ℤ)
  else .error (.validation "Invalid size calculation parameters")

/-- `OrderCalculationService.calculateOrderExecution`
(src/unnamed/part_009, lines 14-29). -/
def calculateOrderExecution (type : OrderType) (currentPrice : ℚ)
    (size amount limitPrice : Option ℚ) : Except Err (ℚ × ℚ) := do
  let executionPrice ← determineExecutionPrice type currentPrice limitPrice
  let executionSize ← calculateSize size amount executionPrice
  return (executionPrice, executionSize)

/-- The collaborators the core consumes: instrument existence, current
market price (`0` meaning no tradable price) and user existence. -/
structure Env where
  instrumentExists : Nat → Bool
  currentPrice : Nat → ℚ
  userExists : Nat → Bool

/-- The order store plus the id sequence and the clock; `repository.create`
stamps `datetime = now` and the clock is strictly increasing, so the
insertion order of `orders` is the `ORDER BY datetime ASC` order. -/
structure DB where
  orders : List Order
  nextId : Nat
  now : Nat

/-- `OrderRepository.getAllUserOrders`: the user's orders with status
FILLED or NEW, in ascending `datetime` order. -/
def getAllUserOrders (db : DB) (userId : Nat) : List Order :=
  db.orders.filter
    (fun o => o.userId = userId ∧
      (o.status = OrderStatus.FILLED ∨ o.status = OrderStatus.NEW))

/-- The portfolio view returned by `PortfolioService.getPortfolio`
(account fields and total value omitted; they are derived display data). -/
structure Portfolio where
  cashBalance : CashBalance
  positions : List Position
deriving DecidableEq, Repr

/-- `PortfolioService.getPortfolio` (services/PortfolioService.ts):
throws when the user does not exist, otherwise runs both calculators
over the user's FILLED + NEW orders. -/
def getPortfolio (env : Env) (db : DB) (userId : Nat) : Except Err Portfolio :=
  if env.userExists userId then
    let allOrders := getAllUserOrders db userId
    .ok { cashBalance := calculateCashBalance allOrders
          positions := calculatePositions allOrders env.currentPrice }
  else .error (.err "User not found")

/-- `PortfolioValidationService.checkAvailableCash`: available cash of
the recomputed portfolio vs. the required amount; any error becomes
`false`. -/
def checkAvailableCash (env : Env) (db : DB) (userId : Nat)
    (requiredAmount : ℚ) : Bool :=
  match getPortfolio env db userId with
  | .ok portfolio => portfolio.cashBalance.available ≥ requiredAmount
  | .error _ => false

/-- `PortfolioValidationService.checkAvailableShares`: available shares
of the position for the instrument; no position or any error is `false`. -/
def checkAvailableShares (env : Env) (db : DB) (userId instrumentId : Nat)
    (requiredShares : ℚ) : Bool :=
  match getPortfolio env db userId with
  | .ok portfolio =>
    match portfolio.positions.find? (fun p => p.instrumentId = instrumentId) with
    | some position => position.available ≥ requiredShares
    | none => false
  | .error _ => false

/-- `PortfolioValidationService.validateOrderFunds`: BUY checks cash for
`size × price`, SELL checks shares, cash sides always pass. -/
def validateOrderFunds (env : Env) (db : DB) (userId instrumentId : Nat)
    (side : OrderSide) (size price : ℚ) : Bool :=
  match side with
  | OrderSide.BUY => checkAvailableCash env db userId (size * price)
  | OrderSide.SELL => checkAvailableShares env db userId instrumentId size
  | _ => true

/-- `OrderStatusService.determineInitialStatus`: NEW when admission
passes, REJECTED otherwise (errors also map to REJECTED; the checks
already absorb their errors into `false`). -/
def determineInitialStatus (env : Env) (db : DB) (userId instrumentId : Nat)
    (side : OrderSide) (size price : ℚ) : OrderStatus :=
  if validateOrderFunds env db userId instrumentId side size price then
    OrderStatus.NEW
  else OrderStatus.REJECTED

/-- `orderRepository.save` on a fetched-and-mutated entity: every stored
row with the entity's id is overwritten. -/
def updateOrder (db : DB) (o : Order) : DB :=
  { db with orders := db.orders.map (fun x => if x.id = o.id then o else x) }

/-- `OrderExecutionService.validateOrderAtExecutionExcludingCurrent`
(src/unnamed/part_013, lines 64-110): recompute the portfolio, add the
order's own reservation back, and check the availability. -/
def validateOrderAtExecutionExcludingCurrent (env : Env) (db : DB)
    (o : Order) : Except Err Unit := do
  let portfolio ← getPortfolio env db o.userId
  match o.side with
  | OrderSide.BUY =>
    let orderReservedCash := o.size * toNumberOrZero o.price
    let adjustedAvailable := portfolio.cashBalance.available + orderReservedCash
    if adjustedAvailable < orderReservedCash then
      .error (.err "Insufficient available cash balance")
    else .ok ()
  | OrderSide.SELL =>
    match portfolio.positions.find? (fun p => p.instrumentId = o.instrumentId) with
    | none => .error (.err "No position found for instrument")
    | some position =>
      let adjustedAvailable := position.available + o.size
      if adjustedAvailable < o.size then
        .error (.err "Insufficient available shares")
      else .ok ()
  | _ => .ok ()

/-- `OrderExecutionService.executeOrder` (src/unnamed/part_013, lines
21-58). Returns the updated store together with the outcome: on a
re-validation failure the order is saved as REJECTED and the error is
re-thrown. A missing order surfaces as an error with the store
unchanged. -/
def executeOrder (env : Env) (db : DB) (orderId : Nat) : DB × Except Err Unit :=
  match db.orders.find? (fun o => o.id = orderId) with
  | none => (db, .error (.err "Order not found"))
  | some o =>
    if o.status ≠ OrderStatus.NEW then
      (db, .error (.err "Cannot process order with status"))
    else
      match
        (if o.type = OrderType.LIMIT then
          validateOrderAtExecutionExcludingCurrent env db o
        else .ok ()) with
      | .ok _ => (updateOrder db { o with status := OrderStatus.FILLED }, .ok ())
      | .error e =>
        (updateOrder db { o with status := OrderStatus.REJECTED }, .error e)

/-- `OrderService.getOrderById` (the re-fetch after execution). -/
def getOrderById (db : DB) (orderId : Nat) : Option Order :=
  db.orders.find? (fun o => o.id = orderId)

/-- `OrderService.processOrderById` (src/unnamed/part_008, lines
259-268): execute, then re-fetch and return the order; an execution
error propagates to the caller. -/
def processOrderById (env : Env) (db : DB) (orderId : Nat) :
    DB × Except Err Order :=
  let r := executeOrder env db orderId
  match r.2 with
  | .error e => (r.1, .error e)
  | .ok _ =>
    match getOrderById r.1 orderId with
    | some o => (r.1, .ok o)
    | none => (r.1, .error (.app "Failed to retrieve processed order" 500))

/-- `OrderService.cancelOrder` (src/unnamed/part_008, lines 125-171):
404 when missing, 403 when not the owner, `ValidationError` when the
status is not NEW, else flip to CANCELLED. -/
def cancelOrder (db : DB) (orderId userId : Nat) : DB × Except Err Order :=
  match db.orders.find? (fun o => o.id = orderId) with
  | none => (db, .error (.app "Order not found" 404))
  | some o =>
    if o.userId ≠ userId then
      (db, .error (.app "Unauthorized to cancel this order" 403))
    else if o.status ≠ OrderStatus.NEW then
      (db, .error (.validation "Cannot cancel order with status"))
    else
      let cancelled := { o with status := OrderStatus.CANCELLED }
      (updateOrder db cancelled, .ok cancelled)

/-- `CreateOrderDto` (dto/index.ts) as it reaches `OrderService`. -/
structure CreateOrderDto where
  userId : Nat
  instrumentId : Nat
  side : OrderSide
  type : OrderType
  size : Option ℚ
  amount : Option ℚ
  price : Option ℚ
deriving DecidableEq, Repr

/-- `OrderService.validateOrder` (src/unnamed/part_008, lines 392-420):
instrument must exist; LIMIT needs a present positive price; MARKET must
not carry a (truthy) price; a truthy non-positive size or amount throws. -/
def validateOrder (env : Env) (dto : CreateOrderDto) : Except Err Unit :=
  if ¬ env.instrumentExists dto.instrumentId then
    .error (.validation "Instrument not found")
  else if dto.type = OrderType.LIMIT ∧
      (¬ numTruthy dto.price ∨ dto.price.getD 0 ≤ 0) then
    .error (.validation "LIMIT orders must have a valid price")
  else if dto.type = OrderType.MARKET ∧ numTruthy dto.price then
    .error (.validation "MARKET orders should not specify a price")
  else if numTruthy dto.size ∧ dto.size.getD 0 ≤ 0 then
    .error (.validation "Size must be greater than 0")
  else if numTruthy dto.amount ∧ dto.amount.getD 0 ≤ 0 then
    .error (.validation "Amount must be greater than 0")
  else .ok ()

/-- `OrderService.createOrder` (src/unnamed/part_008, lines 49-120):
validate, resolve price/size, admit, persist; MARKET orders that were
admitted are executed synchronously and re-fetched. -/
def createOrder (env : Env) (db : DB) (dto : CreateOrderDto) :
    DB × Except Err Order :=
  match validateOrder env dto with
  | .error e => (db, .error e)
  | .ok _ =>
    let currentPrice := env.currentPrice dto.instrumentId
    if currentPrice = 0 then
      (db, .error (.validation "Unable to get current price for instrument"))
    else
      match calculateOrderExecution dto.type currentPrice
        dto.size dto.amount dto.price with
      | .error e => (db, .error e)
      | .ok (executionPrice, executionSize) =>
        if executionSize ≤ 0 then
          (db, .error (.validation "Invalid order size calculated"))
        else
          let status := determineInitialStatus env db dto.userId
            dto.instrumentId dto.side executionSize executionPrice
          let savedOrder : Order :=
            { id := db.nextId, instrumentId := dto.instrumentId
              userId := dto.userId, side := dto.side, size := executionSize
              price := some executionPrice, type := dto.type
              status := status, datetime := db.now }
          let db1 : DB :=
            { orders := db.orders ++ [savedOrder]
              nextId := db.nextId + 1, now := db.now + 1 }
          if status = OrderStatus.REJECTED then (db1, .ok savedOrder)
          else if dto.type = OrderType.MARKET then
            let r := executeOrder env db1 savedOrder.id
            match r.2 with
            | .ok _ =>
              match getOrderById r.1 savedOrder.id with
              | some processed => (r.1, .ok processed)
              | none => (r.1, .error (.app "Failed to retrieve processed order" 500))
            | .error e => (r.1, .error e)
          else (db1, .ok savedOrder)

/-- The ARS cash instrument id hardcoded in `CashController`. -/
def ARS_INSTRUMENT_ID : Nat := 66

/-- `CashController.deposit` (controllers/CashController.ts, lines
29-83): basic request validation, then a CASH_IN order with
`type = MARKET`, `size = amount` and `price = 1`. -/
def deposit (env : Env) (db : DB) (userId : Nat) (amount : ℚ) :
    DB × Except Err Order :=
  if userId = 0 ∨ amount = 0 then
    (db, .error (.app "userId and amount are required" 400))
  else if amount ≤ 0 then
    (db, .error (.app "amount must be a positive number" 400))
  else
    createOrder env db
      { userId := userId, instrumentId := ARS_INSTRUMENT_ID
        side := OrderSide.CASH_IN, type := OrderType.MARKET
        size := some amount, amount := none, price := some 1 }

/-- `CashController.withdraw` (controllers/CashController.ts, lines
89-154): basic request validation, then the available-cash check, then
a CASH_OUT order with `type = MARKET`, `size = amount`, `price = 1`. -/
def withdraw (env : Env) (db : DB) (userId : Nat) (amount : ℚ) :
    DB × Except Err Order :=
  if userId = 0 ∨ amount = 0 then
    (db, .error (.app "userId and amount are required" 400))
  else if amount ≤ 0 then
    (db, .error (.app "amount must be a positive number" 400))
  else
    match getPortfolio env db userId with
    | .error e => (db, .error e)
    | .ok portfolio =>
      if portfolio.cashBalance.available < amount then
        (db, .error (.app "Insufficient funds" 400))
      else
        createOrder env db
          { userId := userId, instrumentId := ARS_INSTRUMENT_ID
            side := OrderSide.CASH_OUT, type := OrderType.MARKET
            size := some amount, amount := none, price := some 1 }

/-- The order-mutating operations exposed by the service layer. -/
inductive Op
  | create (dto : CreateOrderDto)
  | process (orderId : Nat)
  | cancel (orderId userId : Nat)

/-- Effect of one operation on the order store. -/
def applyOp (env : Env) (db : DB) : Op → DB
  | .create dto => (createOrder env db dto).1
  | .process orderId => (processOrderById env db orderId).1
  | .cancel orderId userId => (cancelOrder db orderId userId).1

/-- States of the order store reachable from the empty store through
`createOrder`, `processOrder` and `cancelOrder`. -/
inductive Reachable (env : Env) : DB → Prop
  | init : Reachable env ⟨[], 1, 0⟩
  | step {db : DB} (op : Op) : Reachable env db → Reachable env (applyOp env db op)

/-! ## Invariant bookkeeping for the position ledger

`calculatePositions` reads, per user and instrument, the chronological
list of that user's trading orders with status FILLED or NEW: the FILLED
ones drive the replayed quantity, the NEW SELL ones drive the share
reservation. `mixedStep` tracks both quantities over that one list. -/

/-- Quantity/reservation step over one user's trading orders of one
instrument: a FILLED BUY adds its size to the held quantity, a FILLED
SELL subtracts it unless the running quantity is `≤ 0` (the replay
skip), and a NEW SELL adds its size to the reserved quantity. -/
def mixedStep (qr : ℚ × ℚ) (o : Order) : ℚ × ℚ :=
  if o.status = OrderStatus.FILLED then
    if o.side = OrderSide.BUY then (qr.1 + o.size, qr.2)
    else if o.side = OrderSide.SELL then
      (if qr.1 ≤ 0 then qr else (qr.1 - o.size, qr.2))
    else qr
  else if o.status = OrderStatus.NEW ∧ o.side = OrderSide.SELL then
    (qr.1, qr.2 + o.size)
  else qr

/-- "The replay never skips here": when the next order is a FILLED SELL
the running quantity is strictly positive. -/
def okStep (q : ℚ) (o : Order) : Prop :=
  o.status = OrderStatus.FILLED → o.side = OrderSide.SELL → 0 < q

/-- The ledger invariant along a list: every FILLED SELL executes at a
positive quantity, and after every step the held quantity dominates the
reserved quantity. -/
def chain (qr : ℚ × ℚ) : List Order → Prop
  | [] => True
  | o :: t => okStep qr.1 o ∧ (mixedStep qr o).1 ≥ (mixedStep qr o).2 ∧
      chain (mixedStep qr o) t

/-- One user's trading orders for one instrument, exactly as
`calculatePositions` reads them out of `getAllUserOrders`. -/
def ledgerOrders (db : DB) (uid iid : Nat) : List Order :=
  ((getAllUserOrders db uid).filter isTrading).filter
    (fun o => o.instrumentId = iid)

/-- Membership predicate of `ledgerOrders` as a single filter. -/
def inLedger (uid iid : Nat) (o : Order) : Bool :=
  (o.userId = uid ∧
    (o.status = OrderStatus.FILLED ∨ o.status = OrderStatus.NEW)) ∧
  isTrading o ∧ o.instrumentId = iid

/-- The store invariant maintained by the service layer: ids are bounded
by the id sequence and pairwise distinct, sizes are positive, and each
user's per-instrument ledger satisfies `chain` from `(0, 0)`. -/
def Wf (db : DB) : Prop :=
  (∀ o ∈ db.orders, o.id < db.nextId) ∧
  db.orders.Pairwise (fun a b => a.id ≠ b.id) ∧
  (∀ o ∈ db.orders, 0 < o.size) ∧
  (∀ uid iid, chain (0, 0) (ledgerOrders db uid iid))

/-! ## Concrete sample data used by witnesses and counterexamples -/

/-- Sample environment: user 1 exists; instruments 66 (the ARS cash
instrument, price 1) and 7 (price 10) exist. -/
def env0 : Env :=
  { instrumentExists := fun i => i = 66 ∨ i = 7
    currentPrice := fun i => if i = 66 then 1 else if i = 7 then 10 else 0
    userExists := fun u => u = 1 }

/-- The empty initial store. -/
def db0 : DB := ⟨[], 1, 0⟩

/-- A raw CASH_IN order request for 1000 (the only way cash enters). -/
def dtoCashIn : CreateOrderDto :=
  { userId := 1, instrumentId := 66, side := OrderSide.CASH_IN
    type := OrderType.MARKET, size := some 1000, amount := none, price := none }

/-- Store after the CASH_IN order. -/
def db1 : DB := (createOrder env0 db0 dtoCashIn).1

/-- A MARKET BUY of 10 shares of instrument 7. -/
def dtoBuy : CreateOrderDto :=
  { userId := 1, instrumentId := 7, side := OrderSide.BUY
    type := OrderType.MARKET, size := some 10, amount := none, price := none }

/-- Store after CASH_IN and the MARKET BUY. -/
def db2 : DB := (createOrder env0 db1 dtoBuy).1

/-- A single FILLED BUY of 1 share at price 100. -/
def oBuy100 : Order :=
  { id := 1, instrumentId := 7, userId := 1, side := OrderSide.BUY, size := 1
    price := some 100, type := OrderType.MARKET, status := OrderStatus.FILLED
    datetime := 0 }

/-- A FILLED BUY of 10 shares at price 50. -/
def oBuy50 : Order :=
  { id := 1, instrumentId := 7, userId := 1, side := OrderSide.BUY, size := 10
    price := some 50, type := OrderType.MARKET, status := OrderStatus.FILLED
    datetime := 0 }

/-- A FILLED SELL of 4 shares at price 70. -/
def oSell70 : Order :=
  { id := 2, instrumentId := 7, userId := 1, side := OrderSide.SELL, size := 4
    price := some 70, type := OrderType.MARKET, status := OrderStatus.FILLED
    datetime := 1 }

/-- A pending LIMIT BUY of 5 shares at price 10 by user 1, stored while
the user has no cash at all (its own reservation exceeds the total). -/
def oPendingBuy : Order :=
  { id := 1, instrumentId := 7, userId := 1, side := OrderSide.BUY, size := 5
    price := some 10, type := OrderType.LIMIT, status := OrderStatus.NEW
    datetime := 0 }

/-- A store holding just the pending LIMIT BUY. -/
def dbPendingBuy : DB := ⟨[oPendingBuy], 2, 1⟩

/-- A FILLED CASH_IN order for 1000 pesos. -/
def oCashIn1000 : Order :=
  { id := 1, instrumentId := 66, userId := 1, side := OrderSide.CASH_IN
    size := 1000, price := some 1, type := OrderType.MARKET
    status := OrderStatus.FILLED, datetime := 0 }

/-- A store where user 1 holds 1000 pesos of settled cash. -/
def dbCash : DB := ⟨[oCashIn1000], 2, 1⟩

/-- A NEW MARKET BUY order (as persisted between admission and
synchronous execution). -/
def oNewMkt : Order :=
  { id := 1, instrumentId := 7, userId := 1, side := OrderSide.BUY, size := 5
    price := some 10, type := OrderType.MARKET, status := OrderStatus.NEW
    datetime := 0 }

/-- A store holding just the NEW MARKET BUY. -/
def dbNewMkt : DB := ⟨[oNewMkt], 2, 1⟩

/-- A FILLED MARKET BUY of 10 shares of instrument 7 at price 10. -/
def oBuyPos : Order :=
  { id := 1, instrumentId := 7, userId := 1, side := OrderSide.BUY, size := 10
    price := some 10, type := OrderType.MARKET, status := OrderStatus.FILLED
    datetime := 0 }

/-- A store where user 1 holds 10 shares of instrument 7. -/
def dbPos : DB := ⟨[oBuyPos], 2, 1⟩

/-- A pending LIMIT SELL of 4 shares of instrument 7 at price 12
(used to exercise the execution-time re-validation of a SELL). -/
def oSellReval : Order :=
  { id := 2, instrumentId := 7, userId := 1, side := OrderSide.SELL, size := 4
    price := some 12, type := OrderType.LIMIT, status := OrderStatus.NEW
    datetime := 1 }

/-- A store where user 1 holds 10 shares of instrument 7 and has the
LIMIT SELL of 4 shares pending. -/
def dbPosSell : DB := ⟨[oBuyPos, oSellReval], 3, 2⟩

/-- The FILLED MARKET BUY that `createOrder env0 db1 dtoBuy` persists
(id 2, stamped at the clock value 1). -/
def oBuyFilled : Order :=
  { id := 2, instrumentId := 7, userId := 1, side := OrderSide.BUY, size := 10
    price := some 10, type := OrderType.MARKET, status := OrderStatus.FILLED
    datetime := 1 }

/-- A FILLED BUY of 10 shares at price 1 (oversell replay scenario). -/
def oBuy10p1 : Order :=
  { id := 1, instrumentId := 7, userId := 1, side := OrderSide.BUY, size := 10
    price := some 1, type := OrderType.MARKET, status := OrderStatus.FILLED
    datetime := 0 }

/-- A FILLED SELL of 100 shares at price 1: it executes with only 10
shares held, driving the replayed quantity to -90. -/
def oSell100 : Order :=
  { id := 2, instrumentId := 7, userId := 1, side := OrderSide.SELL
    size := 100, price := some 1, type := OrderType.MARKET
    status := OrderStatus.FILLED, datetime := 1 }

/-- A FILLED BUY of 50 shares at price 2 arriving while the replayed
quantity is negative. -/
def oBuy50p2 : Order :=
  { id := 3, instrumentId := 7, userId := 1, side := OrderSide.BUY, size := 50
    price := some 2, type := OrderType.MARKET, status := OrderStatus.FILLED
    datetime := 2 }

/-! ## Helper lemmas -/

theorem replayOrders_append (os : List Order) (o : Order) :
    replayOrders (os ++ [o]) = replayStep (replayOrders os) o := by
  simp [replayOrders, List.foldl_append]

theorem calculateCashBalance_append (os : List Order) (o : Order) :
    calculateCashBalance (os ++ [o]) =
      { total :=
          (cashStep ((calculateCashBalance os).total, (calculateCashBalance os).reserved) o).1
        available :=
          (cashStep ((calculateCashBalance os).total, (calculateCashBalance os).reserved) o).1 -
          (cashStep ((calculateCashBalance os).total, (calculateCashBalance os).reserved) o).2
        reserved :=
          (cashStep ((calculateCashBalance os).total, (calculateCashBalance os).reserved) o).2 } := by
  simp [calculateCashBalance, List.foldl_append]

theorem calculatePositions_nil_of_no_trading (os : List Order)
    (mp : Nat → ℚ) (h : os.filter isTrading = []) :
    calculatePositions os mp = [] := by
  simp [calculatePositions, h, instrumentIdsIn]

theorem getPortfolio_dbCash :
    getPortfolio env0 dbCash 1 = .ok ⟨⟨1000, 1000, 0⟩, []⟩ := by
  simp only [getPortfolio, show getAllUserOrders dbCash 1 = [oCashIn1000] from rfl]
  rw [if_pos (by decide : env0.userExists 1 = true)]
  rw [calculatePositions_nil_of_no_trading [oCashIn1000] env0.currentPrice rfl]
  norm_num [calculateCashBalance, cashStep, oCashIn1000, toNumberOrZero]

theorem getPortfolio_dbPendingBuy :
    getPortfolio env0 dbPendingBuy 1 = .ok ⟨⟨0, -50, 50⟩, []⟩ := by
  simp only [getPortfolio,
    show getAllUserOrders dbPendingBuy 1 = [oPendingBuy] from rfl]
  rw [if_pos (by decide : env0.userExists 1 = true)]
  simp [calculateCashBalance, cashStep, oPendingBuy, toNumberOrZero,
    calculatePositions, instrumentIdsIn, isTrading, reduceCtorEq,
    positionFor, calculatePositionData, replayOrders, replayStep,
    calculateMarketValue, calculatePerformancePercent, env0]
  norm_num

theorem getPortfolio_dbPos :
    getPortfolio env0 dbPos 1 =
      .ok ⟨⟨-100, -100, 0⟩, [⟨7, 10, 10, 0, 10, 100, 0⟩]⟩ := by
  simp only [getPortfolio, show getAllUserOrders dbPos 1 = [oBuyPos] from rfl]
  rw [if_pos (by decide : env0.userExists 1 = true)]
  simp [calculateCashBalance, cashStep, oBuyPos, toNumberOrZero,
    calculatePositions, instrumentIdsIn, isTrading, reduceCtorEq,
    positionFor, calculatePositionData, replayOrders, replayStep,
    calculateMarketValue, calculatePerformancePercent, env0]
  norm_num

theorem getPortfolio_dbPosSell :
    getPortfolio env0 dbPosSell 1 =
      .ok ⟨⟨-100, -100, 0⟩, [⟨7, 10, 6, 4, 10, 100, 0⟩]⟩ := by
  simp only [getPortfolio,
    show getAllUserOrders dbPosSell 1 = [oBuyPos, oSellReval] from rfl]
  rw [if_pos (by decide : env0.userExists 1 = true)]
  simp [calculateCashBalance, cashStep, oBuyPos, oSellReval, toNumberOrZero,
    calculatePositions, instrumentIdsIn, isTrading, reduceCtorEq,
    positionFor, calculatePositionData, replayOrders, replayStep,
    calculateMarketValue, calculatePerformancePercent, env0]
  norm_num

theorem eq_update_of_mem_of_id {db : DB} {o' x : Order}
    (hx : x ∈ (updateOrder db o').orders) (hid : x.id = o'.id) : x = o' := by
  simp only [updateOrder, List.mem_map] at hx
  obtain ⟨y, hy, hfy⟩ := hx
  by_cases h : y.id = o'.id
  · rw [if_pos h] at hfy
    exact hfy.symm
  · rw [if_neg h] at hfy
    rw [← hfy] at hid
    exact absurd hid h

theorem find?_updateOrder {l : List Order} {oid : Nat} {o : Order}
    (hf : l.find? (fun x => x.id = oid) = some o) (o' : Order)
    (hid : o'.id = o.id) :
    (l.map (fun x => if x.id = o.id then o' else x)).find?
      (fun x => x.id = oid) = some o' := by
  have hoid : o.id = oid := by
    have h2 := List.find?_some hf
    simpa using h2
  induction l with
  | nil => simp at hf
  | cons h t ih =>
    rw [List.find?_cons] at hf
    by_cases hh : h.id = oid
    · rw [show (decide (h.id = oid)) = true from decide_eq_true hh] at hf
      have hho : h = o := by simpa using hf
      rw [List.map_cons, List.find?_cons, hho, if_pos rfl,
        show (decide (o'.id = oid)) = true from
          decide_eq_true (by rw [hid, hoid])]
    · rw [show (decide (h.id = oid)) = false from
        decide_eq_false hh] at hf
      have hhn : ¬ h.id = o.id := fun hcontra => hh (hcontra.trans hoid)
      rw [List.map_cons, List.find?_cons, if_neg hhn,
        show (decide (h.id = oid)) = false from decide_eq_false hh]
      exact ih hf

theorem createOrder_of_validate_error {env : Env} {dto : CreateOrderDto}
    {e : Err} (db : DB) (h : validateOrder env dto = .error e) :
    createOrder env db dto = (db, .error e) := by
  simp only [createOrder, h]

theorem validateOrder_market_price {env : Env} {dto : CreateOrderDto}
    (hty : dto.type = OrderType.MARKET) (hpr : numTruthy dto.price = true)
    (hi : env.instrumentExists dto.instrumentId = true) :
    validateOrder env dto =
      .error (.validation "MARKET orders should not specify a price") := by
  simp [validateOrder, hi, hty, hpr]

theorem createOrder_market_price_rejected {env : Env} {dto : CreateOrderDto}
    (db : DB) (hty : dto.type = OrderType.MARKET)
    (hpr : numTruthy dto.price = true)
    (hi : env.instrumentExists dto.instrumentId = true) :
    createOrder env db dto =
      (db, .error (.validation "MARKET orders should not specify a price")) :=
  createOrder_of_validate_error db (validateOrder_market_price hty hpr hi)

theorem determineInitialStatus_cases (env : Env) (db : DB) (uid iid : Nat)
    (side : OrderSide) (sz pr : ℚ) :
    determineInitialStatus env db uid iid side sz pr = OrderStatus.NEW ∨
    determineInitialStatus env db uid iid side sz pr = OrderStatus.REJECTED := by
  unfold determineInitialStatus
  split <;> simp

theorem find?_id_append (l : List Order) (nd : Order) (i : Nat)
    (hi : nd.id = i) (h : ∀ x ∈ l, x.id < i) :
    (l ++ [nd]).find? (fun x => x.id = i) = some nd := by
  rw [List.find?_append]
  have hnone : l.find? (fun x => x.id = i) = none := by
    rw [List.find?_eq_none]
    intro x hx
    simpa using Nat.ne_of_lt (h x hx)
  rw [hnone]
  simp [hi]

theorem map_update_append (l : List Order) (nd o' : Order) (i : Nat)
    (hi : nd.id = i) (h : ∀ x ∈ l, x.id < i) :
    (l ++ [nd]).map (fun x => if x.id = i then o' else x) = l ++ [o'] := by
  rw [List.map_append]
  congr 1
  · rw [List.map_congr_left, List.map_id]
    intro x hx
    simp [Nat.ne_of_lt (h x hx)]
  · simp [hi]

theorem executeOrder_new_skip_validation (env : Env) (db : DB) (oid : Nat)
    (o : Order) (hfind : db.orders.find? (fun x => x.id = oid) = some o)
    (hnew : o.status = OrderStatus.NEW) (hty : ¬ o.type = OrderType.LIMIT) :
    executeOrder env db oid =
      (updateOrder db { o with status := OrderStatus.FILLED }, .ok ()) := by
  simp [executeOrder, hfind, hnew, hty]

theorem executeOrder_new_limit (env : Env) (db : DB) (oid : Nat)
    (o : Order) (hfind : db.orders.find? (fun x => x.id = oid) = some o)
    (hnew : o.status = OrderStatus.NEW) (hty : o.type = OrderType.LIMIT) :
    executeOrder env db oid =
      (match validateOrderAtExecutionExcludingCurrent env db o with
        | .ok _ => (updateOrder db { o with status := OrderStatus.FILLED }, .ok ())
        | .error e =>
          (updateOrder db { o with status := OrderStatus.REJECTED }, .error e)) := by
  rcases hv : validateOrderAtExecutionExcludingCurrent env db o with e | u <;>
    simp [executeOrder, hfind, hnew, hty, hv]

/-- Exhaustive description of `createOrder`: either it raises before
persisting anything, or it appends exactly one order — REJECTED when
admission fails, NEW for an admitted LIMIT order, and FILLED for an
admitted MARKET order (executed synchronously) — and returns it. -/
theorem createOrder_cases (env : Env) (db : DB) (dto : CreateOrderDto)
    (hbound : ∀ x ∈ db.orders, x.id < db.nextId) :
    (∃ e, createOrder env db dto = (db, .error e)) ∨
    (∃ (p s : ℚ) (nd : Order),
      calculateOrderExecution dto.type (env.currentPrice dto.instrumentId)
        dto.size dto.amount dto.price = .ok (p, s) ∧ 0 < s ∧
      ((determineInitialStatus env db dto.userId dto.instrumentId dto.side s p =
            OrderStatus.REJECTED ∧
          nd = ⟨db.nextId, dto.instrumentId, dto.userId, dto.side, s, some p,
            dto.type, OrderStatus.REJECTED, db.now⟩) ∨
        (determineInitialStatus env db dto.userId dto.instrumentId dto.side s p =
            OrderStatus.NEW ∧ dto.type = OrderType.LIMIT ∧
          nd = ⟨db.nextId, dto.instrumentId, dto.userId, dto.side, s, some p,
            dto.type, OrderStatus.NEW, db.now⟩) ∨
        (determineInitialStatus env db dto.userId dto.instrumentId dto.side s p =
            OrderStatus.NEW ∧ dto.type = OrderType.MARKET ∧
          nd = ⟨db.nextId, dto.instrumentId, dto.userId, dto.side, s, some p,
            dto.type, OrderStatus.FILLED, db.now⟩)) ∧
      createOrder env db dto =
        ({ orders := db.orders ++ [nd], nextId := db.nextId + 1
           now := db.now + 1 }, .ok nd)) := by
  rcases hval : validateOrder env dto with e | u
  · exact Or.inl ⟨e, by simp only [createOrder, hval]⟩
  cases u
  by_cases hcp : env.currentPrice dto.instrumentId = 0
  · refine Or.inl ⟨.validation "Unable to get current price for instrument", ?_⟩
    simp only [createOrder, hval, if_pos hcp]
  rcases hcalc : calculateOrderExecution dto.type
      (env.currentPrice dto.instrumentId) dto.size dto.amount dto.price
    with e | ⟨p, s⟩
  · exact Or.inl ⟨e, by simp only [createOrder, hval, if_neg hcp, hcalc]⟩
  by_cases hs : s ≤ 0
  · refine Or.inl ⟨.validation "Invalid order size calculated", ?_⟩
    simp only [createOrder, hval, if_neg hcp, hcalc, if_pos hs]
  push_neg at hs
  right
  refine ⟨p, s, ?_⟩
  rcases determineInitialStatus_cases env db dto.userId dto.instrumentId
      dto.side s p with hst | hst
  · -- admitted
    by_cases hty : dto.type = OrderType.MARKET
    · -- MARKET: executed synchronously
      refine ⟨⟨db.nextId, dto.instrumentId, dto.userId, dto.side, s, some p,
        dto.type, OrderStatus.FILLED, db.now⟩, rfl, hs,
        Or.inr (Or.inr ⟨hst, hty, rfl⟩), ?_⟩
      simp only [createOrder, hval, if_neg hcp, hcalc, if_neg (not_le.mpr hs),
        hst, reduceCtorEq, if_false, if_pos hty, reduceIte]
      rw [executeOrder_new_skip_validation env _ db.nextId
        ⟨db.nextId, dto.instrumentId, dto.userId, dto.side, s, some p,
          dto.type, OrderStatus.NEW, db.now⟩
        (find?_id_append db.orders _ db.nextId rfl hbound) rfl (by simp [hty])]
      simp only [updateOrder, getOrderById]
      rw [map_update_append db.orders _ _ db.nextId rfl hbound,
        find?_id_append db.orders _ db.nextId rfl hbound]
    · -- LIMIT: persisted as NEW and returned
      have htyL : dto.type = OrderType.LIMIT := by
        cases h : dto.type
        · exact absurd h hty
        · rfl
      refine ⟨⟨db.nextId, dto.instrumentId, dto.userId, dto.side, s, some p,
        dto.type, OrderStatus.NEW, db.now⟩, rfl, hs,
        Or.inr (Or.inl ⟨hst, htyL, rfl⟩), ?_⟩
      simp only [createOrder, hval, if_neg hcp, hcalc, if_neg (not_le.mpr hs),
        hst, reduceCtorEq, if_false, if_neg hty, reduceIte]
  · -- rejected: persisted as REJECTED and returned
    refine ⟨⟨db.nextId, dto.instrumentId, dto.userId, dto.side, s, some p,
      dto.type, OrderStatus.REJECTED, db.now⟩, rfl, hs,
      Or.inl ⟨hst, rfl⟩, ?_⟩
    simp only [createOrder, hval, if_neg hcp, hcalc, if_neg (not_le.mpr hs),
      hst, reduceIte]

theorem mem_updateOrder_of_id_ne {db : DB} {o' x : Order}
    (hx : x ∈ db.orders) (hne : ¬ x.id = o'.id) :
    x ∈ (updateOrder db o').orders := by
  simp only [updateOrder, List.mem_map]
  exact ⟨x, hx, by simp [hne]⟩

theorem processOrderById_fst (env : Env) (db : DB) (oid : Nat) :
    (processOrderById env db oid).1 = (executeOrder env db oid).1 := by
  rcases h2 : (executeOrder env db oid).2 with e | u
  · simp [processOrderById, h2]
  · rcases hg : getOrderById (executeOrder env db oid).1 oid with _ | o <;>
      simp [processOrderById, h2, hg]

theorem executeOrder_fst_eq_or_update (env : Env) (db : DB) (oid : Nat) :
    (executeOrder env db oid).1 = db ∨
    ∃ o st, db.orders.find? (fun x => x.id = oid) = some o ∧
      o.status = OrderStatus.NEW ∧ st ≠ OrderStatus.NEW ∧
      (executeOrder env db oid).1 = updateOrder db { o with status := st } := by
  rcases hf : db.orders.find? (fun x => x.id = oid) with _ | o
  · left; simp [executeOrder, hf]
  by_cases hst : o.status = OrderStatus.NEW
  · right
    by_cases hty : o.type = OrderType.LIMIT
    · rw [executeOrder_new_limit env db oid o hf hst hty]
      rcases hv : validateOrderAtExecutionExcludingCurrent env db o with e | u
      · exact ⟨o, OrderStatus.REJECTED, hf, hst, by decide, by simp [hv]⟩
      · exact ⟨o, OrderStatus.FILLED, hf, hst, by decide, by simp [hv]⟩
    · rw [executeOrder_new_skip_validation env db oid o hf hst hty]
      exact ⟨o, OrderStatus.FILLED, hf, hst, by decide, rfl⟩
  · left; simp [executeOrder, hf, hst]

theorem cancelOrder_fst_eq_or_update (db : DB) (oid uid : Nat) :
    (cancelOrder db oid uid).1 = db ∨
    ∃ o, db.orders.find? (fun x => x.id = oid) = some o ∧
      o.status = OrderStatus.NEW ∧
      (cancelOrder db oid uid).1 =
        updateOrder db { o with status := OrderStatus.CANCELLED } := by
  rcases hf : db.orders.find? (fun x => x.id = oid) with _ | o
  · left; simp [cancelOrder, hf]
  by_cases howner : o.userId = uid
  · by_cases hst : o.status = OrderStatus.NEW
    · right; exact ⟨o, hf, hst, by simp [cancelOrder, hf, howner, hst]⟩
    · left; simp [cancelOrder, hf, howner, hst]
  · left; simp [cancelOrder, hf, howner]

/-! ### Bridge lemmas: the calculators vs. the `mixedStep` bookkeeping -/

theorem replay_quantity_eq_mixed_fst (L : List Order) :
    ∀ (s : ReplayState) (r : ℚ),
    ((L.filter (fun o => o.status = OrderStatus.FILLED)).foldl
      replayStep s).quantity = (L.foldl mixedStep (s.quantity, r)).1 := by
  induction L with
  | nil => intro s r; rfl
  | cons o t ih =>
    intro s r
    by_cases hst : o.status = OrderStatus.FILLED
    · rw [show (o :: t).filter (fun o => o.status = OrderStatus.FILLED) =
        o :: t.filter (fun o => o.status = OrderStatus.FILLED) by
          simp [List.filter_cons, hst]]
      rw [List.foldl_cons, List.foldl_cons]
      have hq1 : (replayStep s o).quantity = (mixedStep (s.quantity, r) o).1 := by
        by_cases hbuy : o.side = OrderSide.BUY
        · simp [replayStep, mixedStep, hst, hbuy]
        by_cases hsell : o.side = OrderSide.SELL
        · by_cases hq : s.quantity ≤ 0 <;>
            simp [replayStep, mixedStep, hst, hbuy, hsell, hq]
        · simp [replayStep, mixedStep, hst, hbuy, hsell]
      rcases hmix : mixedStep (s.quantity, r) o with ⟨q', r'⟩
      rw [hmix] at hq1
      have hq1' : (replayStep s o).quantity = q' := hq1
      have := ih (replayStep s o) r'
      rw [hq1'] at this
      exact this
    · rw [show (o :: t).filter (fun o => o.status = OrderStatus.FILLED) =
        t.filter (fun o => o.status = OrderStatus.FILLED) by
          simp [List.filter_cons, hst]]
      rw [List.foldl_cons]
      by_cases hns : o.status = OrderStatus.NEW ∧ o.side = OrderSide.SELL
      · rw [show mixedStep (s.quantity, r) o = (s.quantity, r + o.size) by
          simp [mixedStep, hst, hns]]
        exact ih _ _
      · rw [show mixedStep (s.quantity, r) o = (s.quantity, r) by
          simp [mixedStep, hst, hns]]
        exact ih _ _

theorem mixed_snd_eq (L : List Order) :
    ∀ (q r : ℚ),
    (L.foldl mixedStep (q, r)).2 = r +
      ((L.filter (fun o => o.status = OrderStatus.NEW ∧
        o.side = OrderSide.SELL)).map (fun o => o.size)).sum := by
  induction L with
  | nil => intro q r; simp
  | cons o t ih =>
    intro q r
    rw [List.foldl_cons]
    by_cases hns : o.status = OrderStatus.NEW ∧ o.side = OrderSide.SELL
    · rw [show (o :: t).filter (fun o => o.status = OrderStatus.NEW ∧
          o.side = OrderSide.SELL) = o :: t.filter (fun o =>
            o.status = OrderStatus.NEW ∧ o.side = OrderSide.SELL) by
        simp [List.filter_cons, hns]]
      rw [show mixedStep (q, r) o = (q, r + o.size) by
        simp [mixedStep, hns, hns.1]]
      rw [ih]
      simp [List.sum_cons]
      ring
    · rw [show (o :: t).filter (fun o => o.status = OrderStatus.NEW ∧
          o.side = OrderSide.SELL) = t.filter (fun o =>
            o.status = OrderStatus.NEW ∧ o.side = OrderSide.SELL) by
        simp only [List.filter_cons]
        rw [if_neg (by simpa using hns)]]
      have hfst : (mixedStep (q, r) o).2 = r := by
        by_cases hst : o.status = OrderStatus.FILLED
        · by_cases hbuy : o.side = OrderSide.BUY
          · simp [mixedStep, hst, hbuy]
          · by_cases hsell : o.side = OrderSide.SELL
            · by_cases hq : q ≤ 0 <;> simp [mixedStep, hst, hbuy, hsell, hq]
            · simp [mixedStep, hst, hbuy, hsell]
        · simp [mixedStep, hst, hns]
      rcases hmix : mixedStep (q, r) o with ⟨q', r'⟩
      rw [hmix] at hfst
      have hr : r' = r := hfst
      rw [ih, hr]

theorem chain_final (L : List Order) :
    ∀ qr : ℚ × ℚ, chain qr L → qr.2 ≤ qr.1 →
    (L.foldl mixedStep qr).2 ≤ (L.foldl mixedStep qr).1 := by
  induction L with
  | nil => intro qr _ h; simpa using h
  | cons o t ih =>
    intro qr hc h
    obtain ⟨-, hstep, hchain⟩ := hc
    rw [List.foldl_cons]
    exact ih _ hchain hstep

theorem chain_append (X : List Order) :
    ∀ (Y : List Order) (qr : ℚ × ℚ),
    chain qr (X ++ Y) ↔ chain qr X ∧ chain (X.foldl mixedStep qr) Y := by
  induction X with
  | nil => intro Y qr; simp [chain]
  | cons o t ih =>
    intro Y qr
    rw [List.cons_append]
    show (okStep qr.1 o ∧ _ ∧ chain (mixedStep qr o) (t ++ Y)) ↔ _
    rw [ih]
    simp [chain, and_assoc]

theorem mixed_snd_nonneg (L : List Order) (q r : ℚ)
    (hsz : ∀ o ∈ L, 0 < o.size) (hr : 0 ≤ r) :
    0 ≤ (L.foldl mixedStep (q, r)).2 := by
  rw [mixed_snd_eq]
  refine add_nonneg hr (List.sum_nonneg ?_)
  intro x hx
  obtain ⟨o, ho, rfl⟩ := List.mem_map.mp hx
  exact le_of_lt (hsz o (List.mem_of_mem_filter ho))

/-- Shifting the two running quantities by constants `δq ≥ δr` with
`δr ≤ 0` preserves the `chain` invariant (as long as the shifted
reservation stays non-negative) and shifts the final state by the same
constants. Instantiations: filling a pending BUY (`δq = size, δr = 0`),
filling a pending SELL (`δq = δr = -size`), dropping a pending SELL's
reservation (`δq = 0, δr = -size`). -/
theorem chain_shift (δq δr : ℚ) (hδ : δr ≤ δq)
    (L : List Order) :
    ∀ q r : ℚ, (∀ o ∈ L, 0 < o.size) → chain (q, r) L → 0 ≤ r + δr →
    chain (q + δq, r + δr) L ∧
    L.foldl mixedStep (q + δq, r + δr) =
      ((L.foldl mixedStep (q, r)).1 + δq,
        (L.foldl mixedStep (q, r)).2 + δr) := by
  induction L with
  | nil => intro q r _ _ _; exact ⟨trivial, rfl⟩
  | cons o t ih =>
    intro q r hsz hc hr
    obtain ⟨hok, hineq, hrest⟩ := hc
    have hsz0 : 0 < o.size := hsz o (List.mem_cons_self o t)
    have hszt : ∀ x ∈ t, 0 < x.size := fun x hx =>
      hsz x (List.mem_cons_of_mem o hx)
    by_cases hst : o.status = OrderStatus.FILLED
    · by_cases hbuy : o.side = OrderSide.BUY
      · -- FILLED BUY
        have hm : mixedStep (q, r) o = (q + o.size, r) := by
          simp [mixedStep, hst, hbuy]
        have hm' : mixedStep (q + δq, r + δr) o =
            (q + o.size + δq, r + δr) := by
          simp [mixedStep, hst, hbuy, Prod.ext_iff]
          ring
        rw [hm] at hineq hrest
        obtain ⟨hch, heq⟩ := ih (q + o.size) r hszt hrest hr
        refine ⟨⟨?_, ?_, ?_⟩, ?_⟩
        · simp [okStep, hbuy]
        · rw [hm']
          dsimp only at hineq ⊢
          linarith
        · rw [hm']
          exact hch
        · rw [List.foldl_cons, List.foldl_cons, hm, hm', heq]
      · by_cases hsell : o.side = OrderSide.SELL
        · -- FILLED SELL: never skipped thanks to okStep
          have h0q : 0 < q := hok hst hsell
          have hm : mixedStep (q, r) o = (q - o.size, r) := by
            simp [mixedStep, hst, hbuy, hsell, not_le.mpr h0q]
          rw [hm] at hineq hrest
          dsimp only at hineq
          have h0q' : 0 < q + δq := by linarith
          have hm' : mixedStep (q + δq, r + δr) o =
              (q - o.size + δq, r + δr) := by
            simp [mixedStep, hst, hbuy, hsell, not_le.mpr h0q', Prod.ext_iff]
            ring
          obtain ⟨hch, heq⟩ := ih (q - o.size) r hszt hrest hr
          refine ⟨⟨fun _ _ => h0q', ?_, ?_⟩, ?_⟩
          · rw [hm']
            dsimp only
            linarith
          · rw [hm']
            exact hch
          · rw [List.foldl_cons, List.foldl_cons, hm, hm', heq]
        · -- FILLED cash side: no effect
          have hm : mixedStep (q, r) o = (q, r) := by
            simp [mixedStep, hst, hbuy, hsell]
          have hm' : mixedStep (q + δq, r + δr) o = (q + δq, r + δr) := by
            simp [mixedStep, hst, hbuy, hsell]
          rw [hm] at hineq hrest
          obtain ⟨hch, heq⟩ := ih q r hszt hrest hr
          refine ⟨⟨?_, ?_, ?_⟩, ?_⟩
          · simp [okStep, hsell]
          · rw [hm']
            dsimp only at hineq ⊢
            linarith
          · rw [hm']
            exact hch
          · rw [List.foldl_cons, List.foldl_cons, hm, hm', heq]
    · by_cases hns : o.status = OrderStatus.NEW ∧ o.side = OrderSide.SELL
      · -- NEW SELL: reservation grows
        have hm : mixedStep (q, r) o = (q, r + o.size) := by
          simp [mixedStep, hst, hns]
        have hm' : mixedStep (q + δq, r + δr) o =
            (q + δq, r + o.size + δr) := by
          simp [mixedStep, hst, hns, Prod.ext_iff]
          ring
        rw [hm] at hineq hrest
        dsimp only at hineq
        obtain ⟨hch, heq⟩ := ih q (r + o.size) hszt hrest (by linarith)
        refine ⟨⟨?_, ?_, ?_⟩, ?_⟩
        · simp [okStep, hst]
        · rw [hm']
          dsimp only
          linarith
        · rw [hm']
          exact hch
        · rw [List.foldl_cons, List.foldl_cons, hm, hm', heq]
      · -- anything else: no effect
        have hm : mixedStep (q, r) o = (q, r) := by
          simp [mixedStep, hst, hns]
        have hm' : mixedStep (q + δq, r + δr) o = (q + δq, r + δr) := by
          simp [mixedStep, hst, hns]
        rw [hm] at hineq hrest
        obtain ⟨hch, heq⟩ := ih q r hszt hrest hr
        refine ⟨⟨?_, ?_, ?_⟩, ?_⟩
        · simp [okStep, hst]
        · rw [hm']
          dsimp only at hineq ⊢
          linarith
        · rw [hm']
          exact hch
        · rw [List.foldl_cons, List.foldl_cons, hm, hm', heq]

theorem positionFor_fields (L : List Order) (iid : Nat) (cmp : ℚ)
    (pos : Position) (h : positionFor L iid cmp = some pos) :
    pos.instrumentId = iid ∧
    pos.total =
      ((L.filter (fun o => o.instrumentId = iid)).foldl mixedStep (0, 0)).1 ∧
    pos.reserved =
      ((L.filter (fun o => o.instrumentId = iid)).foldl mixedStep (0, 0)).2 ∧
    pos.available = pos.total - pos.reserved ∧ 0 < pos.total := by
  unfold positionFor at h
  by_cases hq : (calculatePositionData
      ((L.filter (fun o => o.instrumentId = iid)).filter
        (fun o => o.status = OrderStatus.FILLED)) cmp).quantity > 0
  · rw [if_pos hq] at h
    have hpos := (Option.some_injective _ h).symm
    have hquant : (calculatePositionData
        ((L.filter (fun o => o.instrumentId = iid)).filter
          (fun o => o.status = OrderStatus.FILLED)) cmp).quantity =
        ((L.filter (fun o => o.instrumentId = iid)).foldl
          mixedStep (0, 0)).1 := by
      show (replayOrders _).quantity = _
      exact replay_quantity_eq_mixed_fst _ ⟨0, 0, 0, 0⟩ 0
    have hres : (((L.filter (fun o => o.instrumentId = iid)).filter
        (fun o => o.status = OrderStatus.NEW ∧ o.side = OrderSide.SELL)).map
          (fun o => o.size)).sum =
        ((L.filter (fun o => o.instrumentId = iid)).foldl
          mixedStep (0, 0)).2 := by
      rw [mixed_snd_eq]
      simp
    rw [hpos]
    refine ⟨rfl, ?_, ?_, ?_, ?_⟩
    · exact hquant
    · exact hres
    · rfl
    · exact hquant ▸ hq
  · rw [if_neg hq] at h
    cases h

theorem mem_positions_positionFor {env : Env} {db : DB} {uid : Nat}
    {portfolio : Portfolio} {pos : Position}
    (hpf : getPortfolio env db uid = .ok portfolio)
    (hpos : pos ∈ portfolio.positions) :
    positionFor ((getAllUserOrders db uid).filter isTrading)
      pos.instrumentId (env.currentPrice pos.instrumentId) = some pos := by
  unfold getPortfolio at hpf
  by_cases hu : env.userExists uid
  · rw [if_pos hu] at hpf
    have : portfolio.positions =
        calculatePositions (getAllUserOrders db uid) env.currentPrice := by
      have := (Except.ok.injEq _ _).mp hpf.symm
      rw [this]
    rw [this] at hpos
    unfold calculatePositions at hpos
    obtain ⟨iid, -, heq⟩ := List.mem_filterMap.mp hpos
    have hiid := (positionFor_fields _ _ _ _ heq).1
    rw [← hiid] at heq
    exact heq
  · rw [if_neg hu] at hpf
    cases hpf

theorem ledgerOrders_eq_filter (db : DB) (uid iid : Nat) :
    ledgerOrders db uid iid = db.orders.filter (inLedger uid iid) := by
  unfold ledgerOrders getAllUserOrders
  rw [List.filter_filter, List.filter_filter]
  apply List.filter_congr
  intro o _
  simp [inLedger, Bool.and_comm, Bool.and_left_comm, Bool.and_assoc]

theorem chain_congr {L : List Order} {q r q' r' : ℚ} (hq : q = q')
    (hr : r = r') (h : chain (q, r) L) : chain (q', r') L := hq ▸ hr ▸ h

theorem orders_splice (db : DB)
    (hpair : db.orders.Pairwise (fun a b => a.id ≠ b.id)) {o : Order}
    (ho : o ∈ db.orders) (o' : Order) (hid : o'.id = o.id) :
    ∃ A B, db.orders = A ++ o :: B ∧
      (updateOrder db o').orders = A ++ o' :: B := by
  obtain ⟨A, B, hAB⟩ := List.append_of_mem ho
  refine ⟨A, B, hAB, ?_⟩
  rw [hAB] at hpair
  have hA : ∀ x ∈ A, x.id ≠ o.id := by
    intro x hx
    exact (List.pairwise_append.mp hpair).2.2 x hx o (List.mem_cons_self o B)
  have hB : ∀ x ∈ B, x.id ≠ o.id := by
    intro x hx
    exact fun hcontra =>
      ((List.pairwise_cons.mp (List.pairwise_append.mp hpair).2.1).1 x hx)
        hcontra.symm
  show (db.orders.map fun x => if x.id = o'.id then o' else x) = _
  rw [hAB, List.map_append, List.map_cons]
  congr 1
  · rw [List.map_congr_left, List.map_id]
    intro x hx
    rw [hid]
    simp [hA x hx]
  · congr 1
    · rw [hid]
      simp
    · rw [List.map_congr_left, List.map_id]
      intro x hx
      rw [hid]
      simp [hB x hx]

theorem mixedStep_filled_buy {o : Order}
    (hst : o.status = OrderStatus.FILLED) (hbuy : o.side = OrderSide.BUY)
    (qr : ℚ × ℚ) : mixedStep qr o = (qr.1 + o.size, qr.2) := by
  simp only [mixedStep, hst, hbuy, reduceCtorEq, reduceIte]

theorem mixedStep_filled_sell_pos {o : Order}
    (hst : o.status = OrderStatus.FILLED) (hsell : o.side = OrderSide.SELL)
    {qr : ℚ × ℚ} (h0 : 0 < qr.1) : mixedStep qr o = (qr.1 - o.size, qr.2) := by
  simp only [mixedStep, hst, hsell, reduceCtorEq, reduceIte,
    if_neg (not_le.mpr h0)]

theorem mixedStep_new_sell {o : Order}
    (hst : o.status = OrderStatus.NEW) (hsell : o.side = OrderSide.SELL)
    (qr : ℚ × ℚ) : mixedStep qr o = (qr.1, qr.2 + o.size) := by
  simp only [mixedStep, hst, hsell, reduceCtorEq, reduceIte, and_self]

theorem mixedStep_new_buy {o : Order}
    (hst : o.status = OrderStatus.NEW) (hbuy : o.side = OrderSide.BUY)
    (qr : ℚ × ℚ) : mixedStep qr o = qr := by
  simp only [mixedStep, hst, hbuy, reduceCtorEq, reduceIte, and_false]

theorem okStep_of_not_sell {q : ℚ} {o : Order}
    (h : ¬ o.side = OrderSide.SELL) : okStep q o := fun _ hs => absurd hs h

theorem okStep_of_not_filled {q : ℚ} {o : Order}
    (h : ¬ o.status = OrderStatus.FILLED) : okStep q o :=
  fun hf _ => absurd hf h

/-- Flipping one NEW order to any non-NEW status preserves the store
invariant — filling a pending order consumes exactly what it had
reserved, and rejecting or cancelling it releases the reservation. -/
theorem wf_flip (db : DB) (hwf : Wf db) {o : Order} (ho : o ∈ db.orders)
    (hnew : o.status = OrderStatus.NEW) (st : OrderStatus)
    (hstn : st ≠ OrderStatus.NEW) :
    Wf (updateOrder db { o with status := st }) := by
  obtain ⟨hbound, hpair, hsizes, hchains⟩ := hwf
  have hfid : ∀ y : Order,
      (if y.id = ({ o with status := st } : Order).id then
        ({ o with status := st } : Order) else y).id = y.id := by
    intro y
    by_cases h : y.id = ({ o with status := st } : Order).id
    · rw [if_pos h]
      exact h.symm
    · rw [if_neg h]
  refine ⟨?_, ?_, ?_, ?_⟩
  · intro x hx
    obtain ⟨y, hy, rfl⟩ := List.mem_map.mp hx
    show _ < db.nextId
    rw [hfid y]
    exact hbound y hy
  · refine List.pairwise_map.mpr (hpair.imp ?_)
    intro a b hab
    rw [hfid a, hfid b]
    exact hab
  · intro x hx
    obtain ⟨y, hy, rfl⟩ := List.mem_map.mp hx
    by_cases h : y.id = ({ o with status := st } : Order).id
    · rw [if_pos h]
      exact hsizes o ho
    · rw [if_neg h]
      exact hsizes y hy
  · intro uid iid
    obtain ⟨A₀, B₀, hAB, hAB'⟩ := orders_splice db hpair ho
      { o with status := st } rfl
    rw [ledgerOrders_eq_filter, hAB']
    have hold := hchains uid iid
    rw [ledgerOrders_eq_filter, hAB] at hold
    rw [List.filter_append, List.filter_cons] at hold ⊢
    have hszA : ∀ x ∈ A₀.filter (inLedger uid iid), 0 < x.size := fun x hx =>
      hsizes x (by
        rw [hAB]
        exact List.mem_append_left _ (List.mem_of_mem_filter hx))
    have hszB : ∀ x ∈ B₀.filter (inLedger uid iid), 0 < x.size := fun x hx =>
      hsizes x (by
        rw [hAB]
        exact List.mem_append_right _
          (List.mem_cons_of_mem o (List.mem_of_mem_filter hx)))
    have hsz0 : 0 < o.size := hsizes o ho
    by_cases hPo : inLedger uid iid o = true
    · rw [if_pos hPo] at hold
      obtain ⟨hchA, hok, hineq, hrest⟩ :=
        (chain_append _ _ (0, 0)).mp hold
      have htr : o.side = OrderSide.BUY ∨ o.side = OrderSide.SELL := by
        have h2 := hPo
        simp [inLedger, isTrading] at h2
        exact h2.2.1
      have hm2 : 0 ≤ ((A₀.filter (inLedger uid iid)).foldl
          mixedStep (0, 0)).2 :=
        mixed_snd_nonneg _ 0 0 hszA le_rfl
      cases st with
      | NEW => exact absurd rfl hstn
      | FILLED =>
        have hPo' : inLedger uid iid { o with status := OrderStatus.FILLED }
            = true := by
          have h2 := hPo
          simp [inLedger, isTrading] at h2 ⊢
          tauto
        rw [if_pos hPo']
        refine (chain_append _ _ (0, 0)).mpr ⟨hchA, ?_⟩
        rcases htr with hbuy | hsell
        · have hmo : mixedStep ((A₀.filter (inLedger uid iid)).foldl
              mixedStep (0, 0)) o =
              (A₀.filter (inLedger uid iid)).foldl mixedStep (0, 0) := mixedStep_new_buy hnew hbuy _
          rw [hmo] at hineq hrest
          have hmo' : mixedStep ((A₀.filter (inLedger uid iid)).foldl
              mixedStep (0, 0)) { o with status := OrderStatus.FILLED } =
              (((A₀.filter (inLedger uid iid)).foldl
                mixedStep (0, 0)).1 + o.size,
               ((A₀.filter (inLedger uid iid)).foldl
                mixedStep (0, 0)).2) := mixedStep_filled_buy
            (show ({ o with status := OrderStatus.FILLED } : Order).status =
              OrderStatus.FILLED from rfl)
            (show ({ o with status := OrderStatus.FILLED } : Order).side =
              OrderSide.BUY from hbuy) _
          refine ⟨?_, ?_, ?_⟩
          · simp [okStep, hbuy]
          · rw [hmo']
            dsimp only
            linarith
          · rw [hmo']
            have := (chain_shift o.size 0 (le_of_lt hsz0) _ _ _ hszB hrest
              (by simpa using hm2)).1
            exact chain_congr rfl (by ring) this
        · have hmo : mixedStep ((A₀.filter (inLedger uid iid)).foldl
              mixedStep (0, 0)) o =
              (((A₀.filter (inLedger uid iid)).foldl mixedStep (0, 0)).1,
               ((A₀.filter (inLedger uid iid)).foldl
                mixedStep (0, 0)).2 + o.size) := mixedStep_new_sell hnew hsell _
          rw [hmo] at hineq hrest
          dsimp only at hineq
          have h0 : 0 < ((A₀.filter (inLedger uid iid)).foldl
              mixedStep (0, 0)).1 := by linarith
          have hmo' : mixedStep ((A₀.filter (inLedger uid iid)).foldl
              mixedStep (0, 0)) { o with status := OrderStatus.FILLED } =
              (((A₀.filter (inLedger uid iid)).foldl
                mixedStep (0, 0)).1 - o.size,
               ((A₀.filter (inLedger uid iid)).foldl
                mixedStep (0, 0)).2) := mixedStep_filled_sell_pos
            (show ({ o with status := OrderStatus.FILLED } : Order).status =
              OrderStatus.FILLED from rfl)
            (show ({ o with status := OrderStatus.FILLED } : Order).side =
              OrderSide.SELL from hsell) h0
          refine ⟨fun _ _ => h0, ?_, ?_⟩
          · rw [hmo']
            dsimp only
            linarith
          · rw [hmo']
            have := (chain_shift (-o.size) (-o.size) le_rfl _ _ _ hszB hrest
              (by linarith)).1
            exact chain_congr (by ring) (by ring) this
      | REJECTED =>
        have hPo' : inLedger uid iid { o with status := OrderStatus.REJECTED }
            = false := by
          simp [inLedger]
        rw [if_neg (by simp [hPo'])]
        refine (chain_append _ _ (0, 0)).mpr ⟨hchA, ?_⟩
        rcases htr with hbuy | hsell
        · have hmo : mixedStep ((A₀.filter (inLedger uid iid)).foldl
              mixedStep (0, 0)) o =
              (A₀.filter (inLedger uid iid)).foldl mixedStep (0, 0) := mixedStep_new_buy hnew hbuy _
          rw [hmo] at hrest
          exact hrest
        · have hmo : mixedStep ((A₀.filter (inLedger uid iid)).foldl
              mixedStep (0, 0)) o =
              (((A₀.filter (inLedger uid iid)).foldl mixedStep (0, 0)).1,
               ((A₀.filter (inLedger uid iid)).foldl
                mixedStep (0, 0)).2 + o.size) := mixedStep_new_sell hnew hsell _
          rw [hmo] at hrest
          have := (chain_shift 0 (-o.size) (by linarith) _ _ _ hszB hrest
            (by linarith)).1
          exact chain_congr (by ring) (by ring) this
      | CANCELLED =>
        have hPo' : inLedger uid iid { o with status := OrderStatus.CANCELLED }
            = false := by
          simp [inLedger]
        rw [if_neg (by simp [hPo'])]
        refine (chain_append _ _ (0, 0)).mpr ⟨hchA, ?_⟩
        rcases htr with hbuy | hsell
        · have hmo : mixedStep ((A₀.filter (inLedger uid iid)).foldl
              mixedStep (0, 0)) o =
              (A₀.filter (inLedger uid iid)).foldl mixedStep (0, 0) := mixedStep_new_buy hnew hbuy _
          rw [hmo] at hrest
          exact hrest
        · have hmo : mixedStep ((A₀.filter (inLedger uid iid)).foldl
              mixedStep (0, 0)) o =
              (((A₀.filter (inLedger uid iid)).foldl mixedStep (0, 0)).1,
               ((A₀.filter (inLedger uid iid)).foldl
                mixedStep (0, 0)).2 + o.size) := mixedStep_new_sell hnew hsell _
          rw [hmo] at hrest
          have := (chain_shift 0 (-o.size) (by linarith) _ _ _ hszB hrest
            (by linarith)).1
          exact chain_congr (by ring) (by ring) this
    · rw [if_neg hPo] at hold
      have hPo' : ¬ (inLedger uid iid { o with status := st } = true) := by
        intro hcontra
        apply hPo
        simp [inLedger, isTrading, hnew] at hcontra ⊢
        tauto
      rw [if_neg hPo']
      exact hold

/-- Appending one NEW or REJECTED order (with a fresh id and positive
size) preserves the store invariant; a NEW SELL additionally requires
that the ledger can cover the new reservation (the admission check). -/
theorem wf_append (db : DB) (hwf : Wf db) (nd : Order)
    (hid : nd.id = db.nextId) (hsz : 0 < nd.size)
    (hstatus : nd.status = OrderStatus.NEW ∨
      nd.status = OrderStatus.REJECTED)
    (hsell : nd.status = OrderStatus.NEW → nd.side = OrderSide.SELL →
      ((ledgerOrders db nd.userId nd.instrumentId).foldl
        mixedStep (0, 0)).2 + nd.size ≤
      ((ledgerOrders db nd.userId nd.instrumentId).foldl
        mixedStep (0, 0)).1) :
    Wf ⟨db.orders ++ [nd], db.nextId + 1, db.now + 1⟩ := by
  obtain ⟨hbound, hpair, hsizes, hchains⟩ := hwf
  refine ⟨?_, ?_, ?_, ?_⟩
  · intro x hx
    rcases List.mem_append.mp hx with hx | hx
    · exact Nat.lt_succ_of_lt (hbound x hx)
    · rw [List.mem_singleton.mp hx, hid]
      exact Nat.lt_succ_self _
  · refine List.pairwise_append.mpr ⟨hpair, List.pairwise_singleton _ _, ?_⟩
    intro a ha b hb
    rw [List.mem_singleton.mp hb, hid]
    exact Nat.ne_of_lt (hbound a ha)
  · intro x hx
    rcases List.mem_append.mp hx with hx | hx
    · exact hsizes x hx
    · rw [List.mem_singleton.mp hx]
      exact hsz
  · intro uid iid
    rw [ledgerOrders_eq_filter]
    show chain (0, 0) ((db.orders ++ [nd]).filter (inLedger uid iid))
    rw [List.filter_append, List.filter_cons, List.filter_nil]
    have hold := hchains uid iid
    rw [ledgerOrders_eq_filter] at hold
    by_cases hP : inLedger uid iid nd = true
    · rw [if_pos hP]
      have hPdata : nd.userId = uid ∧
          (nd.side = OrderSide.BUY ∨ nd.side = OrderSide.SELL) ∧
          nd.instrumentId = iid := by
        have := hP
        simp [inLedger, isTrading] at this
        exact ⟨this.1.1, this.2.1, this.2.2⟩
      have hnew : nd.status = OrderStatus.NEW := by
        rcases hstatus with h | h
        · exact h
        · exfalso
          have := hP
          simp [inLedger, h] at this
      refine (chain_append _ _ (0, 0)).mpr ⟨hold, ?_⟩
      have hfin := chain_final _ (0, 0) hold (le_refl 0)
      rcases hPdata.2.1 with hbuy | hsellside
      · exact ⟨okStep_of_not_filled (by rw [hnew]; exact fun h => nomatch h),
          by rw [mixedStep_new_buy hnew hbuy]; exact hfin, by
            rw [mixedStep_new_buy hnew hbuy]; trivial⟩
      · refine ⟨okStep_of_not_filled (by rw [hnew]; exact fun h => nomatch h),
          ?_, by rw [mixedStep_new_sell hnew hsellside]; trivial⟩
        rw [mixedStep_new_sell hnew hsellside]
        have := hsell hnew hsellside
        rw [ledgerOrders_eq_filter, hPdata.1, hPdata.2.2] at this
        exact this
    · rw [if_neg hP]
      simpa using hold

theorem checkAvailableShares_ledger {env : Env} {db : DB} {uid iid : Nat}
    {s : ℚ} (h : checkAvailableShares env db uid iid s = true) :
    ((ledgerOrders db uid iid).foldl mixedStep (0, 0)).2 + s ≤
      ((ledgerOrders db uid iid).foldl mixedStep (0, 0)).1 := by
  unfold checkAvailableShares at h
  rcases hpf : getPortfolio env db uid with e | pf
  · rw [hpf] at h
    cases h
  simp only [hpf] at h
  rcases hfind : pf.positions.find?
      (fun p => p.instrumentId = iid) with _ | pos
  · simp only [hfind] at h
    exact (Bool.false_ne_true h).elim
  simp only [hfind, ge_iff_le, decide_eq_true_eq] at h
  have hs : s ≤ pos.available := h
  have hmem : pos ∈ pf.positions := List.mem_of_find?_eq_some hfind
  have hpred : pos.instrumentId = iid := by
    have h2 := List.find?_some hfind
    simpa using h2
  have hposf := mem_positions_positionFor hpf hmem
  obtain ⟨-, htot, hres, hav, -⟩ := positionFor_fields _ _ _ _ hposf
  rw [hav, htot, hres, hpred] at hs
  have hs' : s ≤ ((ledgerOrders db uid iid).foldl mixedStep (0, 0)).1 -
      ((ledgerOrders db uid iid).foldl mixedStep (0, 0)).2 := hs
  linarith

theorem cashStep_snd_mono (acc : ℚ × ℚ) (o : Order)
    (hsz : 0 ≤ o.size) (hpr : 0 ≤ toNumberOrZero o.price) :
    acc.2 ≤ (cashStep acc o).2 := by
  simp only [cashStep]
  by_cases hF : o.status = OrderStatus.FILLED
  · rw [if_pos hF]
    cases o.side <;> exact le_refl _
  · rw [if_neg hF]
    by_cases hNB : o.status = OrderStatus.NEW ∧ o.side = OrderSide.BUY
    · rw [if_pos hNB]
      have hmul : 0 ≤ o.size * toNumberOrZero o.price := mul_nonneg hsz hpr
      show acc.2 ≤ acc.2 + o.size * toNumberOrZero o.price
      linarith
    · rw [if_neg hNB]

theorem cash_reserved_mono (L : List Order) :
    ∀ acc : ℚ × ℚ,
    (∀ o ∈ L, 0 ≤ o.size ∧ 0 ≤ toNumberOrZero o.price) →
    acc.2 ≤ (L.foldl cashStep acc).2 := by
  induction L with
  | nil => intro acc _; exact le_refl _
  | cons o t ih =>
    intro acc hL
    rw [List.foldl_cons]
    refine le_trans ?_ (ih (cashStep acc o)
      (fun x hx => hL x (List.mem_cons_of_mem o hx)))
    obtain ⟨hsz, hpr⟩ := hL o (List.mem_cons_self o t)
    exact cashStep_snd_mono acc o hsz hpr

theorem cash_reserved_nonneg (L : List Order)
    (h : ∀ o ∈ L, 0 ≤ o.size ∧ 0 ≤ toNumberOrZero o.price) :
    0 ≤ (calculateCashBalance L).reserved :=
  cash_reserved_mono L (0, 0) h

theorem determineInitialStatus_new_funds {env : Env} {db : DB}
    {uid iid : Nat} {side : OrderSide} {sz pr : ℚ}
    (h : determineInitialStatus env db uid iid side sz pr =
      OrderStatus.NEW) :
    validateOrderFunds env db uid iid side sz pr = true := by
  unfold determineInitialStatus at h
  by_cases hv : validateOrderFunds env db uid iid side sz pr = true
  · exact hv
  · rw [if_neg hv] at h
    exact absurd h (by decide)

theorem new_sell_admission (env : Env) (db : DB) (uid iid : Nat) (s p : ℚ)
    (hst : determineInitialStatus env db uid iid OrderSide.SELL s p =
      OrderStatus.NEW) :
    ((ledgerOrders db uid iid).foldl mixedStep (0, 0)).2 + s ≤
      ((ledgerOrders db uid iid).foldl mixedStep (0, 0)).1 := by
  have hv := determineInitialStatus_new_funds hst
  have hv' : checkAvailableShares env db uid iid s = true := hv
  exact checkAvailableShares_ledger hv'

theorem updateOrder_append_fresh (db : DB) (ndN o' : Order)
    (hbound : ∀ x ∈ db.orders, x.id < db.nextId)
    (hid : ndN.id = db.nextId) (hid' : o'.id = db.nextId) :
    updateOrder ⟨db.orders ++ [ndN], db.nextId + 1, db.now + 1⟩ o' =
      ⟨db.orders ++ [o'], db.nextId + 1, db.now + 1⟩ := by
  unfold updateOrder
  rw [hid']
  rw [map_update_append db.orders ndN o' db.nextId hid hbound]

/-- Every service-layer operation preserves the store invariant. -/
theorem wf_applyOp (env : Env) (db : DB) (hwf : Wf db) (op : Op) :
    Wf (applyOp env db op) := by
  cases op with
  | create dto =>
    show Wf (createOrder env db dto).1
    rcases createOrder_cases env db dto hwf.1 with ⟨e, hc⟩ |
      ⟨p, s, nd, hcalc, hs, hcases, hc⟩
    · rw [hc]
      exact hwf
    · rw [hc]
      rcases hcases with ⟨hst, hnd⟩ | ⟨hst, htyL, hnd⟩ | ⟨hst, htyM, hnd⟩
      · refine wf_append db hwf nd (by rw [hnd]) (by rw [hnd]; exact hs)
          (Or.inr (by rw [hnd])) ?_
        intro hnew hside
        rw [hnd] at hnew
        simp at hnew
      · refine wf_append db hwf nd (by rw [hnd]) (by rw [hnd]; exact hs)
          (Or.inl (by rw [hnd])) ?_
        intro hnew hside
        have hsideD : dto.side = OrderSide.SELL := by
          rw [hnd] at hside
          exact hside
        rw [hsideD] at hst
        have hadm := new_sell_admission env db dto.userId dto.instrumentId
          s p hst
        rw [hnd]
        exact hadm
      · rw [hnd]
        have hwf1 : Wf ⟨db.orders ++ [⟨db.nextId, dto.instrumentId,
            dto.userId, dto.side, s, some p, dto.type, OrderStatus.NEW,
            db.now⟩], db.nextId + 1, db.now + 1⟩ := by
          refine wf_append db hwf _ rfl hs (Or.inl rfl) ?_
          intro _ hside
          have hsideD : dto.side = OrderSide.SELL := hside
          rw [hsideD] at hst
          exact new_sell_admission env db dto.userId dto.instrumentId s p hst
        have heq := updateOrder_append_fresh db
          ⟨db.nextId, dto.instrumentId, dto.userId, dto.side, s, some p,
            dto.type, OrderStatus.NEW, db.now⟩
          ⟨db.nextId, dto.instrumentId, dto.userId, dto.side, s, some p,
            dto.type, OrderStatus.FILLED, db.now⟩ hwf.1 rfl rfl
        rw [← heq]
        exact @wf_flip ⟨db.orders ++ [⟨db.nextId, dto.instrumentId,
            dto.userId, dto.side, s, some p, dto.type, OrderStatus.NEW,
            db.now⟩], db.nextId + 1, db.now + 1⟩ hwf1
          ⟨db.nextId, dto.instrumentId, dto.userId, dto.side, s, some p,
            dto.type, OrderStatus.NEW, db.now⟩
          (List.mem_append_right _ (List.mem_singleton_self _)) rfl
          OrderStatus.FILLED (by decide)
  | process oid =>
    show Wf (processOrderById env db oid).1
    rw [processOrderById_fst]
    rcases executeOrder_fst_eq_or_update env db oid with h |
      ⟨o, st, hf, hnewo, hstn, h⟩
    · rw [h]
      exact hwf
    · rw [h]
      exact wf_flip db hwf (List.mem_of_find?_eq_some hf) hnewo st hstn
  | cancel oid uid =>
    show Wf (cancelOrder db oid uid).1
    rcases cancelOrder_fst_eq_or_update db oid uid with h | ⟨o, hf, hnewo, h⟩
    · rw [h]
      exact hwf
    · rw [h]
      exact wf_flip db hwf (List.mem_of_find?_eq_some hf) hnewo
        OrderStatus.CANCELLED (by decide)

/-- Every store reachable through the service operations satisfies the
store invariant. -/
theorem reachable_wf {env : Env} {db : DB} (h : Reachable env db) :
    Wf db := by
  induction h with
  | init =>
    refine ⟨?_, ?_, ?_, ?_⟩
    · intro o ho
      exact absurd ho (List.not_mem_nil o)
    · exact List.Pairwise.nil
    · intro o ho
      exact absurd ho (List.not_mem_nil o)
    · intro uid iid
      rw [ledgerOrders_eq_filter]
      exact trivial
  | step op hr ih => exact wf_applyOp env _ ih op

theorem db1_eq : db1 = dbCash := rfl

theorem createOrder_db2 :
    createOrder env0 dbCash dtoBuy =
      (⟨[oCashIn1000, oBuyFilled], 3, 2⟩, .ok oBuyFilled) := by
  have hc : checkAvailableCash env0 dbCash 1 (10 * 10) = true := by
    simp only [checkAvailableCash, getPortfolio_dbCash]
    norm_num
  have hst : determineInitialStatus env0 dbCash dtoBuy.userId
      dtoBuy.instrumentId dtoBuy.side 10 10 = OrderStatus.NEW := by
    have hv : validateOrderFunds env0 dbCash dtoBuy.userId
        dtoBuy.instrumentId dtoBuy.side 10 10 = true := hc
    show (if validateOrderFunds env0 dbCash dtoBuy.userId
        dtoBuy.instrumentId dtoBuy.side 10 10 = true then OrderStatus.NEW
      else OrderStatus.REJECTED) = OrderStatus.NEW
    rw [if_pos hv]
  have hcp : ¬ env0.currentPrice dtoBuy.instrumentId = (0 : ℚ) := by
    norm_num [env0, dtoBuy]
  have hszpos : ¬ (10 : ℚ) ≤ 0 := by norm_num
  have htyM : dtoBuy.type = OrderType.MARKET := rfl
  have hbnd : ∀ x ∈ dbCash.orders, x.id < dbCash.nextId := by decide
  simp only [createOrder,
    show validateOrder env0 dtoBuy = Except.ok () from rfl,
    if_neg hcp,
    show calculateOrderExecution dtoBuy.type
        (env0.currentPrice dtoBuy.instrumentId) dtoBuy.size dtoBuy.amount
        dtoBuy.price = Except.ok (10, 10) from rfl,
    if_neg hszpos, hst, reduceCtorEq, if_false, if_pos htyM, reduceIte]
  rw [executeOrder_new_skip_validation env0 _ dbCash.nextId
    ⟨dbCash.nextId, dtoBuy.instrumentId, dtoBuy.userId, dtoBuy.side, 10,
      some 10, dtoBuy.type, OrderStatus.NEW, dbCash.now⟩
    (find?_id_append dbCash.orders _ dbCash.nextId rfl hbnd) rfl
    (by simp [htyM])]
  simp only [updateOrder, getOrderById]
  rw [map_update_append dbCash.orders _ _ dbCash.nextId rfl hbnd,
    find?_id_append dbCash.orders _ dbCash.nextId rfl hbnd]
  rfl

theorem db2_eq : db2 = ⟨[oCashIn1000, oBuyFilled], 3, 2⟩ := by
  show (createOrder env0 dbCash dtoBuy).1 = _
  rw [createOrder_db2]

theorem getPortfolio_db2 :
    getPortfolio env0 db2 1 =
      .ok ⟨⟨900, 900, 0⟩, [⟨7, 10, 10, 0, 10, 100, 0⟩]⟩ := by
  rw [db2_eq]
  simp only [getPortfolio,
    show getAllUserOrders ⟨[oCashIn1000, oBuyFilled], 3, 2⟩ 1 =
      [oCashIn1000, oBuyFilled] from rfl]
  rw [if_pos (by decide : env0.userExists 1 = true)]
  simp [calculateCashBalance, cashStep, oCashIn1000, oBuyFilled,
    toNumberOrZero, calculatePositions, instrumentIdsIn, isTrading,
    reduceCtorEq, positionFor, calculatePositionData, replayOrders,
    replayStep, calculateMarketValue, calculatePerformancePercent, env0]
  norm_num

/-- **C1** (amended): for every order list and market price, the position
calculator's `totalReturnPercent` equals the percent *change*
`(realizedGains + marketValue − totalInvestment) / totalInvestment × 100`
when `totalInvestment > 0` and `realizedGains + marketValue > 0`, and `0`
otherwise (in particular `0` when `totalInvestment` is not `> 0`). -/
theorem c1_totalReturnPercent_formula (orders : List Order) (cmp : ℚ) :
    (calculatePositionData orders cmp).totalReturnPercent =
      if 0 < (calculatePositionData orders cmp).totalInvestment ∧
          0 < (calculatePositionData orders cmp).realizedGains +
              (calculatePositionData orders cmp).marketValue then
        ((calculatePositionData orders cmp).realizedGains +
          (calculatePositionData orders cmp).marketValue -
          (calculatePositionData orders cmp).totalInvestment) /
          (calculatePositionData orders cmp).totalInvestment * 100
      else 0 := by
  simp only [calculatePositionData, calculatePerformancePercent, calculateMarketValue,
    gt_iff_lt]
  by_cases h1 : 0 < (replayOrders orders).totalInvestment
  · by_cases h2 : 0 < (replayOrders orders).realizedGains +
        (replayOrders orders).quantity * cmp
    · rw [if_pos h1, if_neg (by push_neg; exact ⟨h1, h2⟩), if_pos ⟨h1, h2⟩]
    · rw [if_pos h1, if_pos (Or.inr (not_lt.mp h2)),
        if_neg (by rintro ⟨-, hc⟩; exact h2 hc)]
  · rw [if_neg h1, if_neg (by rintro ⟨hc, -⟩; exact h1 hc)]

/-- **C1** (counterexample to the claim as stated): one FILLED BUY of 1
share at price 100, market price 100: `totalInvestment = 100 > 0`,
`realizedGains + marketValue = 100`, so the claimed formula gives `100`,
but the code returns `0`. -/
theorem c1_counterexample :
    0 < (calculatePositionData [oBuy100] 100).totalInvestment ∧
    (calculatePositionData [oBuy100] 100).totalReturnPercent ≠
      ((calculatePositionData [oBuy100] 100).realizedGains +
        (calculatePositionData [oBuy100] 100).marketValue) /
        (calculatePositionData [oBuy100] 100).totalInvestment * 100 := by
  norm_num [calculatePositionData, replayOrders, replayStep, calculateMarketValue,
    calculatePerformancePercent, toNumberOrZero, oBuy100]

/-- **C6** (counterexample to the claim as stated): on the
chronological, all-positive-size FILLED history BUY 10@1, SELL 100@1,
BUY 50@2, the claim's own SELL law executes the oversell (quantity
10 > 0) and drives the quantity to -90, so the final BUY lands on
`Q + s = -40 ≤ 0` and the code sets `averageCost = 0`, while the
claimed unconditional formula `(Q×C + s×p)/(Q+s)` gives `-1/4`. -/
theorem c6_counterexample :
    0 < oBuy10p1.size ∧ 0 < oSell100.size ∧ 0 < oBuy50p2.size ∧
    oBuy50p2.side = OrderSide.BUY ∧
    (replayOrders ([oBuy10p1, oSell100] ++ [oBuy50p2])).averageCost ≠
      ((replayOrders [oBuy10p1, oSell100]).quantity *
          (replayOrders [oBuy10p1, oSell100]).averageCost +
        oBuy50p2.size * toNumberOrZero oBuy50p2.price) /
        ((replayOrders [oBuy10p1, oSell100]).quantity + oBuy50p2.size) := by
  simp [replayOrders, replayStep, toNumberOrZero, oBuy10p1, oSell100,
    oBuy50p2, reduceCtorEq]
  norm_num

/-- **C6** (amended): replay laws of the position calculator. Appending
one FILLED order to a chronological replay: a BUY of size `s` at price
`p` sets `Q += s`, `totalInvestment += s×p`, and
`C := (Q×C + s×p)/(Q+s)` when the new quantity `Q + s` is positive but
`C := 0` when it is not (reachable through an oversell permitted by the
SELL law); a SELL with `Q > 0` adds `(p − C)×s` to `realizedGains` and
subtracts `s` from `Q`, leaving `C` and `totalInvestment` unchanged; a
SELL with `Q ≤ 0` is skipped and changes nothing. -/
theorem c6_replay_step_laws (os : List Order) (o : Order) :
    (o.side = OrderSide.BUY →
      replayOrders (os ++ [o]) =
        ⟨(replayOrders os).quantity + o.size,
          if (replayOrders os).quantity + o.size > 0 then
            ((replayOrders os).quantity * (replayOrders os).averageCost +
              o.size * toNumberOrZero o.price) /
              ((replayOrders os).quantity + o.size)
          else 0,
          (replayOrders os).totalInvestment + o.size * toNumberOrZero o.price,
          (replayOrders os).realizedGains⟩) ∧
    (o.side = OrderSide.SELL → 0 < (replayOrders os).quantity →
      replayOrders (os ++ [o]) =
        ⟨(replayOrders os).quantity - o.size,
          (replayOrders os).averageCost,
          (replayOrders os).totalInvestment,
          (replayOrders os).realizedGains +
            (toNumberOrZero o.price - (replayOrders os).averageCost) * o.size⟩) ∧
    (o.side = OrderSide.SELL → (replayOrders os).quantity ≤ 0 →
      replayOrders (os ++ [o]) = replayOrders os) := by
  rw [replayOrders_append]
  refine ⟨fun hside => ?_, fun hside hq => ?_, fun hside hq => ?_⟩
  · simp only [replayStep, hside, reduceIte]
  · simp only [replayStep, hside]
    simp only [reduceCtorEq, reduceIte, if_neg (not_le.mpr hq)]
  · simp only [replayStep, hside]
    simp only [reduceCtorEq, reduceIte, if_pos hq]

/-- **C6** witness: BUY 10 @ 50 then SELL 4 @ 70 (spec scenario E),
instantiating the SELL law: quantity 10 − 4, average cost stays 50,
realized gains (70 − 50) × 4. -/
theorem c6_witness :
    replayOrders ([oBuy50] ++ [oSell70]) =
      ⟨(replayOrders [oBuy50]).quantity - oSell70.size,
        (replayOrders [oBuy50]).averageCost,
        (replayOrders [oBuy50]).totalInvestment,
        (replayOrders [oBuy50]).realizedGains +
          (toNumberOrZero oSell70.price - (replayOrders [oBuy50]).averageCost) *
            oSell70.size⟩ :=
  (c6_replay_step_laws [oBuy50] oSell70).2.1 rfl
    (by norm_num [replayOrders, replayStep, toNumberOrZero, oBuy50])

/-- **C7** (confirmed): per-order laws of the cash calculator, for every
input order set. Appending one order: a FILLED CASH_IN adds `size` to
total, a FILLED CASH_OUT subtracts `size`, a FILLED BUY subtracts
`size × price`, a FILLED SELL adds `size × price`, a NEW BUY adds
`size × price` to reserved; a null price on BUY/SELL reads as `0`
through `toNumberOrZero` so the order moves no cash; CASH_IN/CASH_OUT
results do not depend on the price at all. The calculator is a total
function, so it never fails. -/
theorem c7_cash_ledger_laws (os : List Order) (id iid uid : Nat) (sz : ℚ)
    (pr : Option ℚ) (ty : OrderType) (dt : Nat) :
    (calculateCashBalance
        (os ++ [⟨id, iid, uid, OrderSide.CASH_IN, sz, pr, ty, OrderStatus.FILLED, dt⟩]) =
      ⟨(calculateCashBalance os).total + sz,
        (calculateCashBalance os).total + sz - (calculateCashBalance os).reserved,
        (calculateCashBalance os).reserved⟩) ∧
    (calculateCashBalance
        (os ++ [⟨id, iid, uid, OrderSide.CASH_OUT, sz, pr, ty, OrderStatus.FILLED, dt⟩]) =
      ⟨(calculateCashBalance os).total - sz,
        (calculateCashBalance os).total - sz - (calculateCashBalance os).reserved,
        (calculateCashBalance os).reserved⟩) ∧
    (calculateCashBalance
        (os ++ [⟨id, iid, uid, OrderSide.BUY, sz, pr, ty, OrderStatus.FILLED, dt⟩]) =
      ⟨(calculateCashBalance os).total - sz * toNumberOrZero pr,
        (calculateCashBalance os).total - sz * toNumberOrZero pr -
          (calculateCashBalance os).reserved,
        (calculateCashBalance os).reserved⟩) ∧
    (calculateCashBalance
        (os ++ [⟨id, iid, uid, OrderSide.SELL, sz, pr, ty, OrderStatus.FILLED, dt⟩]) =
      ⟨(calculateCashBalance os).total + sz * toNumberOrZero pr,
        (calculateCashBalance os).total + sz * toNumberOrZero pr -
          (calculateCashBalance os).reserved,
        (calculateCashBalance os).reserved⟩) ∧
    (calculateCashBalance
        (os ++ [⟨id, iid, uid, OrderSide.BUY, sz, pr, ty, OrderStatus.NEW, dt⟩]) =
      ⟨(calculateCashBalance os).total,
        (calculateCashBalance os).total -
          ((calculateCashBalance os).reserved + sz * toNumberOrZero pr),
        (calculateCashBalance os).reserved + sz * toNumberOrZero pr⟩) ∧
    (∀ side : OrderSide, side = OrderSide.BUY ∨ side = OrderSide.SELL →
      ∀ st : OrderStatus,
        calculateCashBalance (os ++ [⟨id, iid, uid, side, sz, none, ty, st, dt⟩]) =
          calculateCashBalance os) ∧
    (∀ side : OrderSide, side = OrderSide.CASH_IN ∨ side = OrderSide.CASH_OUT →
      ∀ st : OrderStatus, ∀ p1 p2 : Option ℚ,
        calculateCashBalance (os ++ [⟨id, iid, uid, side, sz, p1, ty, st, dt⟩]) =
          calculateCashBalance (os ++ [⟨id, iid, uid, side, sz, p2, ty, st, dt⟩])) := by
  refine ⟨?_, ?_, ?_, ?_, ?_, ?_, ?_⟩
  · rw [calculateCashBalance_append]; simp [cashStep]
  · rw [calculateCashBalance_append]; simp [cashStep]
  · rw [calculateCashBalance_append]; simp [cashStep]
  · rw [calculateCashBalance_append]; simp [cashStep]
  · rw [calculateCashBalance_append]; simp [cashStep]
  · rintro side (rfl | rfl) st <;> rw [calculateCashBalance_append] <;>
      cases st <;> simp [cashStep, toNumberOrZero, calculateCashBalance]
  · rintro side (rfl | rfl) st p1 p2 <;> rw [calculateCashBalance_append,
      calculateCashBalance_append] <;> cases st <;> simp [cashStep]

/-- **C7** witness: a FILLED BUY with a null price moves no cash. -/
theorem c7_witness :
    calculateCashBalance
        ([] ++ [⟨1, 7, 1, OrderSide.BUY, 5, none, OrderType.MARKET,
          OrderStatus.FILLED, 0⟩]) =
      calculateCashBalance [] ∧
    calculateCashBalance
        ([] ++ [⟨1, 66, 1, OrderSide.CASH_IN, 9, some 3, OrderType.MARKET,
          OrderStatus.FILLED, 0⟩]) =
      calculateCashBalance
        ([] ++ [⟨1, 66, 1, OrderSide.CASH_IN, 9, some 8, OrderType.MARKET,
          OrderStatus.FILLED, 0⟩]) :=
  ⟨(c7_cash_ledger_laws [] 1 7 1 5 none OrderType.MARKET 0).2.2.2.2.2.1
      OrderSide.BUY (Or.inl rfl) OrderStatus.FILLED,
    (c7_cash_ledger_laws [] 1 66 1 9 none OrderType.MARKET 0).2.2.2.2.2.2
      OrderSide.CASH_IN (Or.inl rfl) OrderStatus.FILLED (some 3) (some 8)⟩

/-- **C2** (confirmed): a MARKET `createOrder` request carrying a truthy
price always fails with a `ValidationError` before anything is
persisted; since `CashController` always builds MARKET orders with
`price = 1`, every (well-formed) cash deposit and every
sufficiently-funded cash withdrawal fails with the
"MARKET orders should not specify a price" error and persists no
CASH_IN/CASH_OUT order. -/
theorem c2_market_price_blocks_cash_ops :
    (∀ (env : Env) (db : DB) (dto : CreateOrderDto),
      dto.type = OrderType.MARKET → numTruthy dto.price = true →
      ∃ msg, createOrder env db dto = (db, .error (.validation msg))) ∧
    (∀ (env : Env) (db : DB) (userId : Nat) (amount : ℚ),
      userId ≠ 0 → 0 < amount → env.instrumentExists ARS_INSTRUMENT_ID = true →
      deposit env db userId amount =
        (db, .error (.validation "MARKET orders should not specify a price"))) ∧
    (∀ (env : Env) (db : DB) (userId : Nat) (amount : ℚ)
      (portfolio : Portfolio),
      userId ≠ 0 → 0 < amount → env.instrumentExists ARS_INSTRUMENT_ID = true →
      getPortfolio env db userId = .ok portfolio →
      amount ≤ portfolio.cashBalance.available →
      withdraw env db userId amount =
        (db, .error (.validation "MARKET orders should not specify a price"))) := by
  refine ⟨?_, ?_, ?_⟩
  · intro env db dto hty hpr
    by_cases hi : env.instrumentExists dto.instrumentId
    · exact ⟨"MARKET orders should not specify a price",
        createOrder_market_price_rejected db hty hpr hi⟩
    · refine ⟨"Instrument not found", createOrder_of_validate_error db ?_⟩
      simp only [validateOrder, if_pos]
      rw [if_pos (by simpa using hi)]
  · intro env db userId amount huid hamt hi
    rw [deposit, if_neg (by push_neg; exact ⟨huid, ne_of_gt hamt⟩),
      if_neg (not_le.mpr hamt)]
    exact createOrder_market_price_rejected db rfl (by norm_num [numTruthy]) hi
  · intro env db userId amount portfolio huid hamt hi hpf hav
    rw [withdraw, if_neg (by push_neg; exact ⟨huid, ne_of_gt hamt⟩),
      if_neg (not_le.mpr hamt), hpf]
    simp only [if_neg (not_lt.mpr hav)]
    exact createOrder_market_price_rejected db rfl (by norm_num [numTruthy]) hi

/-- **C2** witness: with 1000 pesos of settled cash, both a 500-peso
deposit and a 500-peso (sufficiently funded) withdrawal fail with the
MARKET-price `ValidationError` and leave the store unchanged. -/
theorem c2_witness :
    deposit env0 dbCash 1 500 =
      (dbCash, .error (.validation "MARKET orders should not specify a price")) ∧
    withdraw env0 dbCash 1 500 =
      (dbCash, .error (.validation "MARKET orders should not specify a price")) :=
  ⟨c2_market_price_blocks_cash_ops.2.1 env0 dbCash 1 500 (by norm_num)
      (by norm_num) (by decide),
    c2_market_price_blocks_cash_ops.2.2 env0 dbCash 1 500
      ⟨⟨1000, 1000, 0⟩, []⟩ (by norm_num) (by norm_num) (by decide)
      getPortfolio_dbCash
      (by norm_num)⟩

/-- **C3** (confirmed): a BUY or SELL order whose admission check fails
is persisted with status REJECTED and returned successfully (no error);
a CASH_OUT withdrawal whose available-cash check fails raises the
insufficient-funds error and persists nothing, leaving the store
unchanged. -/
theorem c3_rejected_persisted_vs_cashout_error :
    (∀ (env : Env) (db : DB) (dto : CreateOrderDto) (p s : ℚ),
      validateOrder env dto = .ok () →
      ¬ env.currentPrice dto.instrumentId = 0 →
      calculateOrderExecution dto.type (env.currentPrice dto.instrumentId)
        dto.size dto.amount dto.price = .ok (p, s) →
      0 < s →
      (dto.side = OrderSide.BUY ∨ dto.side = OrderSide.SELL) →
      validateOrderFunds env db dto.userId dto.instrumentId dto.side s p = false →
      createOrder env db dto =
        ({ orders := db.orders ++
            [{ id := db.nextId, instrumentId := dto.instrumentId
               userId := dto.userId, side := dto.side, size := s
               price := some p, type := dto.type
               status := OrderStatus.REJECTED, datetime := db.now }]
           nextId := db.nextId + 1, now := db.now + 1 },
          .ok { id := db.nextId, instrumentId := dto.instrumentId
                userId := dto.userId, side := dto.side, size := s
                price := some p, type := dto.type
                status := OrderStatus.REJECTED, datetime := db.now })) ∧
    (∀ (env : Env) (db : DB) (userId : Nat) (amount : ℚ)
      (portfolio : Portfolio),
      userId ≠ 0 → 0 < amount →
      getPortfolio env db userId = .ok portfolio →
      portfolio.cashBalance.available < amount →
      withdraw env db userId amount =
        (db, .error (.app "Insufficient funds" 400))) := by
  constructor
  · intro env db dto p s h1 h2 h3 hs hside hfunds
    simp only [createOrder, h1, h3, if_neg h2, if_neg (not_le.mpr hs),
      determineInitialStatus, hfunds, Bool.false_eq_true, if_false, reduceIte]
  · intro env db userId amount portfolio huid hamt hpf hav
    rw [withdraw, if_neg (by push_neg; exact ⟨huid, ne_of_gt hamt⟩),
      if_neg (not_le.mpr hamt), hpf]
    simp only [if_pos hav]

/-- **C3** witness: with 1000 pesos available, a MARKET BUY of 200
shares at price 10 (2000 pesos) fails admission and is persisted as
REJECTED and returned; a 5000-peso withdrawal fails with the
insufficient-funds error and the store is unchanged. -/
theorem c3_witness :
    createOrder env0 dbCash
        { userId := 1, instrumentId := 7, side := OrderSide.BUY
          type := OrderType.MARKET, size := some 200, amount := none
          price := none } =
      ({ orders := dbCash.orders ++
          [{ id := 2, instrumentId := 7, userId := 1, side := OrderSide.BUY
             size := 200, price := some 10, type := OrderType.MARKET
             status := OrderStatus.REJECTED, datetime := 1 }]
         nextId := 3, now := 2 },
        .ok { id := 2, instrumentId := 7, userId := 1, side := OrderSide.BUY
              size := 200, price := some 10, type := OrderType.MARKET
              status := OrderStatus.REJECTED, datetime := 1 }) ∧
    withdraw env0 dbCash 1 5000 =
      (dbCash, .error (.app "Insufficient funds" 400)) :=
  ⟨c3_rejected_persisted_vs_cashout_error.1 env0 dbCash _ 10 200
      rfl
      (by norm_num [env0]) rfl (by norm_num) (Or.inl rfl)
      (by norm_num [validateOrderFunds, checkAvailableCash, getPortfolio_dbCash]),
    c3_rejected_persisted_vs_cashout_error.2 env0 dbCash 1 5000
      ⟨⟨1000, 1000, 0⟩, []⟩ (by norm_num) (by norm_num) getPortfolio_dbCash
      (by norm_num)⟩

/-- **C9** (confirmed): terminal orders never change status. By the
owner, `cancelOrder` on any non-NEW order fails with the
invalid-state-transition `ValidationError` (never silently succeeds); a
cancel by a non-owner fails with `Unauthorized` (HTTP 403) leaving the
store unchanged; `processOrder` on any non-NEW order fails with the
store unchanged; and under any operation every stored non-NEW order is
preserved unchanged in the store — only a NEW order can transition. -/
theorem c9_terminal_orders_frozen :
    (∀ (db : DB) (oid uid : Nat) (o : Order),
      db.orders.find? (fun x => x.id = oid) = some o →
      o.userId = uid → o.status ≠ OrderStatus.NEW →
      cancelOrder db oid uid =
        (db, .error (.validation "Cannot cancel order with status"))) ∧
    (∀ (db : DB) (oid uid : Nat) (o : Order),
      db.orders.find? (fun x => x.id = oid) = some o →
      o.userId ≠ uid →
      cancelOrder db oid uid =
        (db, .error (.app "Unauthorized to cancel this order" 403))) ∧
    (∀ (env : Env) (db : DB) (oid : Nat) (o : Order),
      db.orders.find? (fun x => x.id = oid) = some o →
      o.status ≠ OrderStatus.NEW →
      executeOrder env db oid =
        (db, .error (.err "Cannot process order with status"))) ∧
    (∀ (env : Env) (db : DB) (op : Op),
      (∀ x ∈ db.orders, x.id < db.nextId) →
      db.orders.Pairwise (fun a b => a.id ≠ b.id) →
      ∀ x ∈ db.orders, x.status ≠ OrderStatus.NEW →
      x ∈ (applyOp env db op).orders) := by
  refine ⟨?_, ?_, ?_, ?_⟩
  · intro db oid uid o hf howner hst
    simp [cancelOrder, hf, howner, hst]
  · intro db oid uid o hf howner
    simp [cancelOrder, hf, howner]
  · intro env db oid o hf hst
    simp [executeOrder, hf, hst]
  · intro env db op hbound hids x hx hxst
    have hupdate : ∀ o o' : Order, o ∈ db.orders → o.status = OrderStatus.NEW →
        o'.id = o.id → x ∈ (updateOrder db o').orders := by
      intro o o' ho hnew hoid
      refine mem_updateOrder_of_id_ne hx ?_
      intro hxid
      have hone : x ≠ o := fun h => hxst (h ▸ hnew)
      exact absurd (by rw [hxid, hoid])
        (List.Pairwise.forall (fun _ _ h => h.symm) hids hx ho hone)
    cases op with
    | create dto =>
      rcases createOrder_cases env db dto hbound with ⟨e, hc⟩ |
        ⟨p, s, nd, -, -, -, hc⟩
      · simp only [applyOp, hc]
        exact hx
      · simp only [applyOp, hc]
        exact List.mem_append_left _ hx
    | process oid =>
      show x ∈ (processOrderById env db oid).1.orders
      rw [processOrderById_fst]
      rcases executeOrder_fst_eq_or_update env db oid with h |
        ⟨o, st, hf, hnew, -, h⟩
      · rw [h]; exact hx
      · rw [h]
        exact hupdate o _ (List.mem_of_find?_eq_some hf) hnew rfl
    | cancel oid uid =>
      show x ∈ (cancelOrder db oid uid).1.orders
      rcases cancelOrder_fst_eq_or_update db oid uid with h | ⟨o, hf, hnew, h⟩
      · rw [h]; exact hx
      · rw [h]
        exact hupdate o _ (List.mem_of_find?_eq_some hf) hnew rfl

/-- **C9** witness: order 1 in `dbCash` is FILLED (terminal); the owner's
cancel fails with the invalid-state-transition error, a stranger's
cancel fails with Unauthorized, processing it fails, and it survives a
cancel operation unchanged. -/
theorem c9_witness :
    cancelOrder dbCash 1 1 =
      (dbCash, .error (.validation "Cannot cancel order with status")) ∧
    cancelOrder dbCash 1 99 =
      (dbCash, .error (.app "Unauthorized to cancel this order" 403)) ∧
    executeOrder env0 dbCash 1 =
      (dbCash, .error (.err "Cannot process order with status")) ∧
    oCashIn1000 ∈ (applyOp env0 dbCash (Op.cancel 1 1)).orders :=
  ⟨c9_terminal_orders_frozen.1 dbCash 1 1 oCashIn1000 rfl rfl (by decide),
    c9_terminal_orders_frozen.2.1 dbCash 1 99 oCashIn1000 rfl (by decide),
    c9_terminal_orders_frozen.2.2.1 env0 dbCash 1 oCashIn1000 rfl (by decide),
    c9_terminal_orders_frozen.2.2.2 env0 dbCash (Op.cancel 1 1)
      (by decide) (by decide) oCashIn1000 (by decide) (by decide)⟩

/-- **C4** (amended): a `processOrder` call on a pending (NEW) LIMIT
order always leaves that order persisted in a terminal state — FILLED
when re-validation succeeds, REJECTED when it fails — never in NEW. On
success the FILLED order is returned to the caller; on re-validation
failure the order is persisted as REJECTED but the error is re-thrown
to the caller (the REJECTED order is not returned). -/
theorem c4_process_limit_terminal (env : Env) (db : DB) (oid : Nat)
    (o : Order) (hf : db.orders.find? (fun x => x.id = oid) = some o)
    (hnew : o.status = OrderStatus.NEW) (hty : o.type = OrderType.LIMIT) :
    (∀ x ∈ (processOrderById env db oid).1.orders, x.id = o.id →
      x.status = OrderStatus.FILLED ∨ x.status = OrderStatus.REJECTED) ∧
    (validateOrderAtExecutionExcludingCurrent env db o = .ok () →
      processOrderById env db oid =
        (updateOrder db { o with status := OrderStatus.FILLED },
          .ok { o with status := OrderStatus.FILLED })) ∧
    (∀ e, validateOrderAtExecutionExcludingCurrent env db o = .error e →
      processOrderById env db oid =
        (updateOrder db { o with status := OrderStatus.REJECTED },
          .error e)) := by
  have hexec := executeOrder_new_limit env db oid o hf hnew hty
  refine ⟨?_, ?_, ?_⟩
  · intro x hx hxid
    rw [processOrderById_fst, hexec] at hx
    rcases hv : validateOrderAtExecutionExcludingCurrent env db o with e | u
    · rw [hv] at hx
      right
      rw [eq_update_of_mem_of_id hx hxid]
    · rw [hv] at hx
      left
      rw [eq_update_of_mem_of_id hx hxid]
  · intro hv
    rw [hv] at hexec
    simp only [processOrderById, hexec, getOrderById, updateOrder]
    rw [find?_updateOrder hf { o with status := OrderStatus.FILLED } rfl]
  · intro e hv
    rw [hv] at hexec
    simp only [processOrderById, hexec]

/-- **C4** (counterexample to the claim as stated): a pending LIMIT BUY
held by a user with no cash fails re-validation; the order is persisted
as REJECTED (terminal), but `processOrder` raises the error instead of
returning the REJECTED order. -/
theorem c4_counterexample :
    (∀ ord : Order, (processOrderById env0 dbPendingBuy 1).2 ≠ .ok ord) ∧
    getOrderById (processOrderById env0 dbPendingBuy 1).1 1 =
      some { oPendingBuy with status := OrderStatus.REJECTED } := by
  have hv : validateOrderAtExecutionExcludingCurrent env0 dbPendingBuy
      oPendingBuy = .error (.err "Insufficient available cash balance") := by
    simp only [validateOrderAtExecutionExcludingCurrent,
      getPortfolio_dbPendingBuy, bind, Except.bind,
      show oPendingBuy.side = OrderSide.BUY from rfl]
    norm_num [oPendingBuy, toNumberOrZero, getPortfolio_dbPendingBuy]
  have hexec := executeOrder_new_limit env0 dbPendingBuy 1 oPendingBuy
    rfl rfl rfl
  rw [hv] at hexec
  constructor
  · intro ord
    simp [processOrderById, hexec]
  · rw [processOrderById_fst, hexec]
    rfl

/-- **C4** witness: processing the pending LIMIT SELL of 4 shares
against a 10-share position succeeds: the order is persisted FILLED and
returned. -/
theorem c4_witness :
    processOrderById env0 dbPosSell 2 =
      (updateOrder dbPosSell { oSellReval with status := OrderStatus.FILLED },
        .ok { oSellReval with status := OrderStatus.FILLED }) :=
  (c4_process_limit_terminal env0 dbPosSell 2 oSellReval rfl rfl rfl).2.1
    (by simp only [validateOrderAtExecutionExcludingCurrent,
          getPortfolio_dbPosSell, bind, Except.bind,
          show oSellReval.side = OrderSide.SELL from rfl]
        norm_num [oSellReval, getPortfolio_dbPosSell])

/-- **C8** (confirmed): execution never re-validates a MARKET order
(a pending MARKET order is filled unconditionally); for LIMIT orders the
execution-time re-validation adds the order's own reservation back:
a BUY passes iff `size × price ≤ available + size × price` (available
cash excluding its own reserved cash), a SELL with a listed position
passes iff `size ≤ position.available + size` (available shares
excluding its own reserved shares), and a SELL with no listed position
is rejected. -/
theorem c8_revalidation_excludes_own_reservation :
    (∀ (env : Env) (db : DB) (oid : Nat) (o : Order),
      db.orders.find? (fun x => x.id = oid) = some o →
      o.status = OrderStatus.NEW → o.type = OrderType.MARKET →
      executeOrder env db oid =
        (updateOrder db { o with status := OrderStatus.FILLED }, .ok ())) ∧
    (∀ (env : Env) (db : DB) (o : Order) (portfolio : Portfolio),
      getPortfolio env db o.userId = .ok portfolio →
      o.side = OrderSide.BUY →
      (validateOrderAtExecutionExcludingCurrent env db o = .ok () ↔
        o.size * toNumberOrZero o.price ≤
          portfolio.cashBalance.available + o.size * toNumberOrZero o.price)) ∧
    (∀ (env : Env) (db : DB) (o : Order) (portfolio : Portfolio)
      (pos : Position),
      getPortfolio env db o.userId = .ok portfolio →
      o.side = OrderSide.SELL →
      portfolio.positions.find?
        (fun pp => pp.instrumentId = o.instrumentId) = some pos →
      (validateOrderAtExecutionExcludingCurrent env db o = .ok () ↔
        o.size ≤ pos.available + o.size)) ∧
    (∀ (env : Env) (db : DB) (o : Order) (portfolio : Portfolio),
      getPortfolio env db o.userId = .ok portfolio →
      o.side = OrderSide.SELL →
      portfolio.positions.find?
        (fun pp => pp.instrumentId = o.instrumentId) = none →
      validateOrderAtExecutionExcludingCurrent env db o =
        .error (.err "No position found for instrument")) := by
  refine ⟨?_, ?_, ?_, ?_⟩
  · intro env db oid o hf hnew hty
    exact executeOrder_new_skip_validation env db oid o hf hnew (by simp [hty])
  · intro env db o portfolio hpf hside
    simp only [validateOrderAtExecutionExcludingCurrent, hpf, hside, bind,
      Except.bind]
    by_cases h : portfolio.cashBalance.available +
        o.size * toNumberOrZero o.price < o.size * toNumberOrZero o.price
    · rw [if_pos h]
      exact iff_of_false (by simp) (not_le.mpr h)
    · rw [if_neg h]
      exact iff_of_true rfl (not_lt.mp h)
  · intro env db o portfolio pos hpf hside hfindp
    simp only [validateOrderAtExecutionExcludingCurrent, hpf, hside, bind,
      Except.bind, hfindp]
    by_cases h : pos.available + o.size < o.size
    · rw [if_pos h]
      exact iff_of_false (by simp) (not_le.mpr h)
    · rw [if_neg h]
      exact iff_of_true rfl (not_lt.mp h)
  · intro env db o portfolio hpf hside hfindp
    simp only [validateOrderAtExecutionExcludingCurrent, hpf, hside, bind,
      Except.bind, hfindp]

/-- **C8** witness: a pending MARKET order fills without re-validation;
the pending LIMIT BUY of notional 50 held with no cash re-validates as
`50 ≤ -50 + 50` (false); a LIMIT SELL of 4 against a 10-share position
re-validates as `4 ≤ 10 + 4` (true); a SELL with no position is
rejected. -/
theorem c8_witness :
    executeOrder env0 dbNewMkt 1 =
      (updateOrder dbNewMkt { oNewMkt with status := OrderStatus.FILLED },
        .ok ()) ∧
    (validateOrderAtExecutionExcludingCurrent env0 dbPendingBuy oPendingBuy =
        .ok () ↔
      oPendingBuy.size * toNumberOrZero oPendingBuy.price ≤
        (-50 : ℚ) + oPendingBuy.size * toNumberOrZero oPendingBuy.price) ∧
    (validateOrderAtExecutionExcludingCurrent env0 dbPos oSellReval =
        .ok () ↔
      oSellReval.size ≤ (10 : ℚ) + oSellReval.size) ∧
    validateOrderAtExecutionExcludingCurrent env0 dbPendingBuy oSellReval =
      .error (.err "No position found for instrument") :=
  ⟨c8_revalidation_excludes_own_reservation.1 env0 dbNewMkt 1 oNewMkt rfl
      rfl rfl,
    c8_revalidation_excludes_own_reservation.2.1 env0 dbPendingBuy
      oPendingBuy ⟨⟨0, -50, 50⟩, []⟩ getPortfolio_dbPendingBuy rfl,
    c8_revalidation_excludes_own_reservation.2.2.1 env0 dbPos oSellReval
      ⟨⟨-100, -100, 0⟩, [⟨7, 10, 10, 0, 10, 100, 0⟩]⟩
      ⟨7, 10, 10, 0, 10, 100, 0⟩ getPortfolio_dbPos rfl rfl,
    c8_revalidation_excludes_own_reservation.2.2.2 env0 dbPendingBuy
      oSellReval ⟨⟨0, -50, 50⟩, []⟩ getPortfolio_dbPendingBuy rfl rfl⟩

/-- **C10** (confirmed): order pricing resolution. MARKET resolves to
the current market price; LIMIT resolves to the supplied (nonzero)
limit price and fails with a `ValidationError` when none is supplied;
the execution size is the requested size when one is given, otherwise
`⌊amount / executionPrice⌋`; and `createOrder` fails with a
`ValidationError` whenever the resolved size is `≤ 0`. -/
theorem c10_pricing_resolution :
    (∀ (cp : ℚ) (lp : Option ℚ),
      determineExecutionPrice OrderType.MARKET cp lp = .ok cp) ∧
    (∀ (cp p : ℚ), p ≠ 0 →
      determineExecutionPrice OrderType.LIMIT cp (some p) = .ok p) ∧
    (∀ cp : ℚ, determineExecutionPrice OrderType.LIMIT cp none =
      .error (.validation "LIMIT orders require a price")) ∧
    (∀ (s : ℚ) (amount : Option ℚ) (p : ℚ), s ≠ 0 →
      calculateSize (some s) amount p = .ok s) ∧
    (∀ (a p : ℚ), a ≠ 0 → 0 < p →
      calculateSize none (some a) p = .ok (⌊a / p⌋ : ℤ)) ∧
    (∀ (env : Env) (db : DB) (dto : CreateOrderDto) (p s : ℚ),
      validateOrder env dto = .ok () →
      ¬ env.currentPrice dto.instrumentId = 0 →
      calculateOrderExecution dto.type (env.currentPrice dto.instrumentId)
        dto.size dto.amount dto.price = .ok (p, s) →
      s ≤ 0 →
      createOrder env db dto =
        (db, .error (.validation "Invalid order size calculated"))) := by
  refine ⟨?_, ?_, ?_, ?_, ?_, ?_⟩
  · intro cp lp; simp [determineExecutionPrice]
  · intro cp p hp; simp [determineExecutionPrice, numTruthy, hp]
  · intro cp; simp [determineExecutionPrice, numTruthy]
  · intro s amount p hs; simp [calculateSize, numTruthy, hs]
  · intro a p ha hp
    simp [calculateSize, numTruthy, ha, hp, ne_of_gt hp]
  · intro env db dto p s h1 h2 h3 h4
    simp only [createOrder, h1, h2, h3, if_neg h2, if_pos h4, reduceIte]

/-- **C10** witness: a LIMIT price of 70 resolves as supplied; a
requested size wins; a MARKET BUY for a 5-peso amount at market price
10 resolves to size `⌊5/10⌋ = 0` and the creation fails with the
invalid-size `ValidationError`. -/
theorem c10_witness :
    determineExecutionPrice OrderType.LIMIT 10 (some 70) = .ok 70 ∧
    calculateSize (some 4) (some 9) 10 = .ok 4 ∧
    calculateSize none (some 5) 10 = .ok (⌊(5 : ℚ) / 10⌋ : ℤ) ∧
    createOrder env0 db0
        { userId := 1, instrumentId := 7, side := OrderSide.BUY
          type := OrderType.MARKET, size := none, amount := some 5
          price := none } =
      (db0, .error (.validation "Invalid order size calculated")) := by
  refine ⟨c10_pricing_resolution.2.1 10 70 (by norm_num),
    c10_pricing_resolution.2.2.2.1 4 (some 9) 10 (by norm_num),
    c10_pricing_resolution.2.2.2.2.1 5 10 (by norm_num) (by norm_num),
    c10_pricing_resolution.2.2.2.2.2 env0 db0 _ 10 0 ?_ ?_ ?_ ?_⟩
  · rfl
  · norm_num [env0]
  · simp only [calculateOrderExecution, determineExecutionPrice, calculateSize,
      numTruthy, env0]
    norm_num [bind, Except.bind, Functor.map, Except.map, Int.floor_eq_iff,
      pure, Except.pure]
  · norm_num

/-- **C5**: the cash calculator always reports
`available = total - reserved`, and its reserve is nonnegative whenever
every order's size and (defaulted) price are nonnegative; and in every
store reachable through `createOrder`, `processOrder` and `cancelOrder`,
every position reported by the portfolio satisfies
`available = total - reserved` with `available` never negative. -/
theorem c5_invariants :
    (∀ L : List Order,
      (calculateCashBalance L).available =
        (calculateCashBalance L).total - (calculateCashBalance L).reserved) ∧
    (∀ L : List Order,
      (∀ o ∈ L, 0 ≤ o.size ∧ 0 ≤ toNumberOrZero o.price) →
      0 ≤ (calculateCashBalance L).reserved) ∧
    (∀ (env : Env) (db : DB) (uid : Nat) (pf : Portfolio),
      Reachable env db → getPortfolio env db uid = .ok pf →
      ∀ pos ∈ pf.positions,
        pos.available = pos.total - pos.reserved ∧ 0 ≤ pos.available) := by
  refine ⟨fun L => rfl, fun L h => cash_reserved_nonneg L h, ?_⟩
  intro env db uid pf hreach hpf pos hpos
  have hwf := reachable_wf hreach
  have hposf := mem_positions_positionFor hpf hpos
  obtain ⟨-, htot, hres, hav, -⟩ := positionFor_fields _ _ _ _ hposf
  refine ⟨hav, ?_⟩
  have hchain := hwf.2.2.2 uid pos.instrumentId
  have hfin := chain_final _ (0, 0) hchain (le_refl 0)
  have hfin' : ((((getAllUserOrders db uid).filter isTrading).filter
      (fun o => o.instrumentId = pos.instrumentId)).foldl
        mixedStep (0, 0)).2 ≤
      ((((getAllUserOrders db uid).filter isTrading).filter
        (fun o => o.instrumentId = pos.instrumentId)).foldl
          mixedStep (0, 0)).1 := hfin
  rw [hav, htot, hres]
  linarith

/-- **C5** witness: in the store reached by a 1000-peso CASH_IN followed
by a filled MARKET BUY of 10 shares, the cash ledger satisfies the
invariant and the reported position of instrument 7 has
`available = total - reserved = 10` with `available` nonnegative. -/
theorem c5_witness :
    ((calculateCashBalance [oCashIn1000, oBuyFilled]).available =
      (calculateCashBalance [oCashIn1000, oBuyFilled]).total -
        (calculateCashBalance [oCashIn1000, oBuyFilled]).reserved) ∧
    0 ≤ (calculateCashBalance [oCashIn1000, oBuyFilled]).reserved ∧
    Reachable env0 db2 ∧
    getPortfolio env0 db2 1 =
      .ok ⟨⟨900, 900, 0⟩, [⟨7, 10, 10, 0, 10, 100, 0⟩]⟩ ∧
    ((⟨7, 10, 10, 0, 10, 100, 0⟩ : Position).available =
      (⟨7, 10, 10, 0, 10, 100, 0⟩ : Position).total -
        (⟨7, 10, 10, 0, 10, 100, 0⟩ : Position).reserved ∧
      0 ≤ (⟨7, 10, 10, 0, 10, 100, 0⟩ : Position).available) := by
  have hnn : ∀ o ∈ [oCashIn1000, oBuyFilled],
      0 ≤ o.size ∧ 0 ≤ toNumberOrZero o.price := by
    intro o ho
    rcases List.mem_cons.mp ho with h | h
    · subst h
      constructor <;> norm_num [oCashIn1000, toNumberOrZero]
    · rw [List.mem_singleton.mp h]
      constructor <;> norm_num [oBuyFilled, toNumberOrZero]
  have hreach : Reachable env0 db2 :=
    Reachable.step (Op.create dtoBuy)
      (Reachable.step (Op.create dtoCashIn) Reachable.init)
  exact ⟨c5_invariants.1 [oCashIn1000, oBuyFilled],
    c5_invariants.2.1 [oCashIn1000, oBuyFilled] hnn, hreach,
    getPortfolio_db2,
    c5_invariants.2.2 env0 db2 1
      ⟨⟨900, 900, 0⟩, [⟨7, 10, 10, 0, 10, 100, 0⟩]⟩ hreach getPortfolio_db2
      ⟨7, 10, 10, 0, 10, 100, 0⟩ (List.mem_singleton_self _)⟩

end Cocos
